import Mathlib

/-!
Verification of the msdfont distance-field kernel.

Shallow embedding of `src/math.rs` and `src/shape.rs` over exact real
arithmetic (`f32` values become `ℝ`; the `f32` literal `0.01` becomes
`1/100`, `f32::MAX` becomes its exact value `2^128 - 2^104`).  For the
claims about NaN behaviour of the `Distance` ordering a second, float-aware
model is given at the end, where an `f32` is `Option ℝ` and `none` stands
for NaN.

The repository's `src/vector.rs` is not part of the given sources (only its
users are), so the 2D vector primitives are modelled from the spec, §2 item 1
and §3 "Vector2": arithmetic, dot product, 2D scalar cross product,
magnitude, and normalization.
-/

noncomputable section

namespace Msdfont

/-- Modelled from the spec: `src/vector.rs` is absent from the sources; the
spec describes "A 2D vector value with arithmetic, dot product, 2D cross
(scalar), magnitude, and normalization" over `(x: f32, y: f32)`. -/
structure Vector2 where
  x : ℝ
  y : ℝ

namespace Vector2

/-- Modelled from the spec: componentwise vector addition. -/
instance : Add Vector2 := ⟨fun a b => ⟨a.x + b.x, a.y + b.y⟩⟩

/-- Modelled from the spec: componentwise vector subtraction. -/
instance : Sub Vector2 := ⟨fun a b => ⟨a.x - b.x, a.y - b.y⟩⟩

/-- Modelled from the spec: vector negation (used by `std::ops::Neg::neg`). -/
instance : Neg Vector2 := ⟨fun a => ⟨-a.x, -a.y⟩⟩

/-- Modelled from the spec: scalar * vector. -/
instance : HMul ℝ Vector2 Vector2 := ⟨fun c v => ⟨c * v.x, c * v.y⟩⟩

/-- Modelled from the spec: vector * scalar (used as `2.0 * v2 * real_pos`). -/
instance : HMul Vector2 ℝ Vector2 := ⟨fun v c => ⟨v.x * c, v.y * c⟩⟩

/-- Modelled from the spec: dot product. -/
def dot (a b : Vector2) : ℝ := a.x * b.x + a.y * b.y

/-- Modelled from the spec: 2D scalar cross product. -/
def cross (a b : Vector2) : ℝ := a.x * b.y - a.y * b.x

/-- Modelled from the spec: squared magnitude (`magnitude2` in the source). -/
def magnitude2 (a : Vector2) : ℝ := a.x * a.x + a.y * a.y

/-- Modelled from the spec: Euclidean magnitude. -/
def magnitude (a : Vector2) : ℝ := Real.sqrt a.magnitude2

/-- Modelled from the spec: normalization, `v / |v|`.  (For `f32` this is a
componentwise division by the magnitude; a zero vector would give NaN, which
callers guard with `is_zero`.) -/
def normalize (a : Vector2) : Vector2 := ⟨a.x / a.magnitude, a.y / a.magnitude⟩

/-- Modelled from the spec: the `is_zero` test on a vector. -/
def isZero (a : Vector2) : Prop := a.x = 0 ∧ a.y = 0

instance (a : Vector2) : Decidable a.isZero := by unfold isZero; infer_instance

@[simp] theorem add_def (a b : Vector2) : a + b = ⟨a.x + b.x, a.y + b.y⟩ := rfl
@[simp] theorem sub_def (a b : Vector2) : a - b = ⟨a.x - b.x, a.y - b.y⟩ := rfl
@[simp] theorem neg_def (a : Vector2) : -a = ⟨-a.x, -a.y⟩ := rfl
@[simp] theorem smul_def (c : ℝ) (v : Vector2) : c * v = ⟨c * v.x, c * v.y⟩ := rfl
@[simp] theorem muls_def (v : Vector2) (c : ℝ) : v * c = ⟨v.x * c, v.y * c⟩ := rfl

end Vector2

/-- Rust's `f32::signum` restricted to non-NaN inputs: `+1.0` for positive
numbers and `+0.0`, `-1.0` for negative numbers and `-0.0`.  (Note that Rust's
`signum` maps `+0.0` to `1.0`, not to `0.0`.) -/
def rustSignum (x : ℝ) : ℝ := if 0 ≤ x then 1 else -1

/-- Rust's `f32::cbrt` (sign-symmetric real cube root). -/
def rustCbrt (x : ℝ) : ℝ :=
  if 0 ≤ x then x ^ ((1 : ℝ) / 3) else -((-x) ^ ((1 : ℝ) / 3))

/-- Rust's `f32::clamp(0.0, 1.0)` on non-NaN inputs. -/
def clamp01 (x : ℝ) : ℝ := min (max x 0) 1

/-- The exact value of `f32::MAX`, `(2 - 2⁻²³) · 2¹²⁷`. -/
def fMAX : ℝ := 2 ^ 128 - 2 ^ 104

/-- The `Distance` from `src/math.rs`: per-query result record.  Field order is
the source's: `extended_dist`, `real_dist`, `orthogonality`, `sign`. -/
structure Distance where
  extended_dist : ℝ
  real_dist : ℝ
  orthogonality : ℝ
  sign : ℝ

/-- The `impl PartialOrd for Distance::partial_cmp` from `src/math.rs`, in the
exact-real model.  The source matches on `diff.abs().partial_cmp(&0.01)`;
over `ℝ` that comparison always yields a result, so the source's `None` arm
is unreachable here (the NaN-aware model below keeps it). -/
def Distance.pcmp (a b : Distance) : Option Ordering :=
  match compare |a.real_dist - b.real_dist| (1 / 100) with
  | Ordering.lt => some (compare b.orthogonality a.orthogonality)
  | Ordering.gt => some (compare a.real_dist b.real_dist)
  | Ordering.eq => some (compare b.orthogonality a.orthogonality)

theorem Distance.pcmp_of_lt {a b : Distance}
    (h : |a.real_dist - b.real_dist| < 1 / 100) :
    a.pcmp b = some (compare b.orthogonality a.orthogonality) := by
  unfold Distance.pcmp
  rw [compare_lt_iff_lt.mpr h]

theorem Distance.pcmp_of_eq {a b : Distance}
    (h : |a.real_dist - b.real_dist| = 1 / 100) :
    a.pcmp b = some (compare b.orthogonality a.orthogonality) := by
  unfold Distance.pcmp
  rw [compare_eq_iff_eq.mpr h]

theorem Distance.pcmp_of_gt {a b : Distance}
    (h : 1 / 100 < |a.real_dist - b.real_dist|) :
    a.pcmp b = some (compare a.real_dist b.real_dist) := by
  unfold Distance.pcmp
  rw [compare_gt_iff_gt.mpr h]

/-- The `Line` segment from `src/shape.rs` (`from` is a Lean keyword, hence
`from'`). -/
structure Line where
  from' : Vector2
  to' : Vector2

/-- The `Quad` (quadratic Bézier) segment from `src/shape.rs`. -/
structure Quad where
  from' : Vector2
  ctrl : Vector2
  to' : Vector2

/-- The `Curve` (cubic Bézier) segment from `src/shape.rs`; its distance query is
`unimplemented!()` in the source. -/
structure Curve where
  from' : Vector2
  ctrl1 : Vector2
  ctrl2 : Vector2
  to' : Vector2

/-- The unrestricted optimal parameter `extended_pos` computed by
`line_signed_distance`:`(p - p0)·(p1 - p0) / (p1 - p0)·(p1 - p0)`. -/
def lineExtPos (l : Line) (p : Vector2) : ℝ :=
  (p - l.from').dot (l.to' - l.from') / (l.to' - l.from').dot (l.to' - l.from')

/-- The clamped parameter `real_pos` of `line_signed_distance`. -/
def lineRealPos (l : Line) (p : Vector2) : ℝ := clamp01 (lineExtPos l p)

/-- The closest point `bezier = p0 + real_pos * (p1 - p0)` of
`line_signed_distance`. -/
def lineClosest (l : Line) (p : Vector2) : Vector2 :=
  l.from' + lineRealPos l p * (l.to' - l.from')

/-- The `line_signed_distance` from `src/math.rs`. -/
def line_signed_distance (l : Line) (p : Vector2) : Distance :=
  let p0 := l.from'
  let p1 := l.to'
  let p1_p0 := p1 - p0
  let extended_pos := lineExtPos l p
  let extended_bezier := p0 + extended_pos * p1_p0
  let extend_bezier_p := extended_bezier - p
  let bezier := lineClosest l p
  let bezier_p := bezier - p
  let real_dist := bezier_p.magnitude
  let extended_dist := extend_bezier_p.magnitude
  let p_bezier := -bezier_p
  let ortho : ℝ :=
    if p_bezier.isZero then 0
    else p1_p0.normalize.cross p_bezier.normalize
  { extended_dist := extended_dist
    real_dist := real_dist
    orthogonality := |ortho|
    sign := rustSignum ortho }

end Msdfont

namespace Msdfont

/-- The `quadratic_roots` from `src/math.rs` (result array `[Option<f32>; 2]` as
a pair). -/
def quadratic_roots (a b c : ℝ) : Option ℝ × Option ℝ :=
  let discriminant := b * b - 4 * a * c
  if a = 0 then
    if b = 0 then (none, none)
    else (some (-c / b), none)
  else if discriminant < 0 then (none, none)
  else if discriminant > 0 then
    let discriminant_sqrt := Real.sqrt discriminant
    let a2 := 1 / (2 * a)
    (some (-(b + discriminant_sqrt) * a2), some ((discriminant_sqrt - b) * a2))
  else (some (-(1 / 2) * b / a), none)

/-- The `q = (b*b - 3*c) / 9` computed by `cubic_roots` on the normalized
coefficients. -/
def cubicQ (b c : ℝ) : ℝ := (b * b - 3 * c) / 9

/-- The `r = (2*b³ + 27*d - 9*c*b) / 54` computed by `cubic_roots` on the
normalized coefficients. -/
def cubicR (b c d : ℝ) : ℝ := (2 * b * b * b + 27 * d - 9 * c * b) / 54

/-- The `s = -r.signum() * (r.abs() + (r² - q³).sqrt()).cbrt()` computed by
`cubic_roots` in its one-real-root branch. -/
def cubicS (b c d : ℝ) : ℝ :=
  -rustSignum (cubicR b c d) *
    rustCbrt (|cubicR b c d| +
      Real.sqrt (cubicR b c d * cubicR b c d - cubicQ b c * cubicQ b c * cubicQ b c))

/-- The `cubic_roots` from `src/math.rs` (result array `[Option<f32>; 3]` as a
triple). -/
def cubic_roots (a b c d : ℝ) : Option ℝ × Option ℝ × Option ℝ :=
  if a = 0 then
    let roots := quadratic_roots b c d
    (roots.1, roots.2, none)
  else
    let b1 := b / a
    let c1 := c / a
    let d1 := d / a
    let q := cubicQ b1 c1
    let r := cubicR b1 c1 d1
    let qqq := q * q * q
    let rr := r * r
    let b3 := b1 * (1 / 3)
    if rr > qqq then
      let s := cubicS b1 c1 d1
      (some ((s + q / s) - b3), none, none)
    else
      let q_sqrt := Real.sqrt q
      let two_pi := 2 * Real.pi
      let theta := Real.arccos (r / q_sqrt ^ 3)
      let m := -2 * q_sqrt
      (some (m * Real.cos (theta * (1 / 3)) - b3),
       some (m * Real.cos ((theta + two_pi) * (1 / 3)) - b3),
       some (m * Real.cos ((theta - two_pi) * (1 / 3)) - b3))

end Msdfont

namespace Msdfont

/-- The mutable state of the root loop in `quad_signed_distance`:
`extended_pos`, `real_pos`, `closest_bezier`, `smallest_dist2`. -/
structure QuadAcc where
  extended_pos : ℝ
  real_pos : ℝ
  closest_bezier : Vector2
  smallest_dist2 : ℝ

/-- One iteration of the root loop in `quad_signed_distance`: `None` entries
are skipped (`flatten`), a `Some` root is clamped, the Bézier point and its
squared distance are computed, and the state is updated when the distance
strictly improves. -/
def quadStep (v1 v2 p0 p : Vector2) (acc : QuadAcc) (r : Option ℝ) : QuadAcc :=
  match r with
  | none => acc
  | some r =>
    let t := clamp01 r
    let bezier : Vector2 := t * t * v2 + 2 * t * v1 + p0
    let dist2 := (bezier - p).magnitude2
    if dist2 < acc.smallest_dist2 then
      { extended_pos := r, real_pos := t, closest_bezier := bezier,
        smallest_dist2 := dist2 }
    else acc

/-- The root-selection loop of `quad_signed_distance`, starting from the
source's initial state `(0.0, 0.0, (f32::MAX, f32::MAX), f32::MAX)` and
folding over the three (optional) roots of the closest-point cubic. -/
def quadBest (q : Quad) (p : Vector2) : QuadAcc :=
  let p0 := q.from'
  let v := p - p0
  let v1 := q.ctrl - p0
  let v2 := q.to' - (2 : ℝ) * q.ctrl + p0
  let a := v2.dot v2
  let b := 3 * v1.dot v2
  let c := 2 * v1.dot v1 - v2.dot v
  let d := -(v1.dot v)
  let roots := cubic_roots a b c d
  [roots.1, roots.2.1, roots.2.2].foldl (quadStep v1 v2 p0 p)
    { extended_pos := 0, real_pos := 0, closest_bezier := ⟨fMAX, fMAX⟩,
      smallest_dist2 := fMAX }

/-- The tangent `dir = 2.0 * v2 * real_pos + 2.0 * v1` computed by
`quad_signed_distance` at the chosen parameter. -/
def quadDir (q : Quad) (p : Vector2) : Vector2 :=
  (2 : ℝ) * (q.to' - (2 : ℝ) * q.ctrl + q.from') * (quadBest q p).real_pos +
    (2 : ℝ) * (q.ctrl - q.from')

/-- The `quad_signed_distance` from `src/math.rs`. -/
def quad_signed_distance (q : Quad) (p : Vector2) : Distance :=
  let p0 := q.from'
  let v1 := q.ctrl - p0
  let v2 := q.to' - (2 : ℝ) * q.ctrl + p0
  let best := quadBest q p
  let extended_bezier :=
    best.extended_pos * best.extended_pos * v2 + 2 * best.extended_pos * v1 + p0
  let extended_dist := (extended_bezier - p).magnitude
  let real_dist := Real.sqrt best.smallest_dist2
  let dir := quadDir q p
  let p_bezier := p - best.closest_bezier
  let ortho : ℝ :=
    if p_bezier.isZero ∨ dir.isZero then 0
    else dir.normalize.cross p_bezier.normalize
  { extended_dist := extended_dist
    real_dist := real_dist
    orthogonality := |ortho|
    sign := rustSignum ortho }

/-- The `Segment` from `src/shape.rs`. -/
inductive Segment where
  | line (l : Line)
  | quadratic (q : Quad)
  | cubic (c : Curve)

/-- The `Segment::distance` from `src/shape.rs`.  The `Cubic` arm calls
`Curve::calculate_distance`, which is `unimplemented!()` in the source (a
panic), modelled as `none`. -/
def Segment.distQ : Segment → Vector2 → Option Distance
  | Segment.line l, p => some (line_signed_distance l p)
  | Segment.quadratic q, p => some (quad_signed_distance q p)
  | Segment.cubic _, _ => none

/-- The `Winding` from `src/shape.rs` (`pub struct Winding(pub bool)`). -/
structure Winding where
  val : Bool

/-- The `Contour` from `src/shape.rs`. -/
structure Contour where
  segments : List Segment
  winding : Winding

/-- The reduction closure in `Contour::distance`: keep the accumulator when
`accum < item` (for `PartialOrd`, `accum < item` means
`partial_cmp(accum, item) == Some(Less)`), else take the item. -/
def distReduce (accum item : Distance) : Distance :=
  if accum.pcmp item = some Ordering.lt then accum else item

/-- The `map` stage of `Contour::distance`: the list of per-segment
distances; `none` if any segment's query panics (a cubic segment). -/
def segDistances : List Segment → Vector2 → Option (List Distance)
  | [], _ => some []
  | s :: rest, p =>
    match s.distQ p, segDistances rest p with
    | some d, some ds => some (d :: ds)
    | _, _ => none

/-- The `Contour::distance` from `src/shape.rs`: map each segment to its
`Distance`, then `reduce` with `distReduce`.  `none` models the `.expect`
panic on an empty contour and the panic of a cubic segment's query. -/
def Contour.distance (c : Contour) (p : Vector2) : Option Distance :=
  match segDistances c.segments p with
  | none => none
  | some [] => none
  | some (d :: ds) => some (ds.foldl distReduce d)

/-- The `line_fn` from `src/math.rs`. -/
def line_fn (p0 p1 : Vector2) (t : ℝ) : Vector2 := p0 + t * (p1 - p0)

/-- The `denominator = (y3-y2)(x1-x0) - (x3-x2)(y1-y0)` computed by
`line_line_intersection`. -/
def llDenom (line1 line2 : Line) : ℝ :=
  (line2.to'.y - line2.from'.y) * (line1.to'.x - line1.from'.x) -
    (line2.to'.x - line2.from'.x) * (line1.to'.y - line1.from'.y)

/-- The `numerator1 = (x3-x2)(y0-y2) - (y3-y2)(x0-x2)` of
`line_line_intersection`. -/
def llNumerator1 (line1 line2 : Line) : ℝ :=
  (line2.to'.x - line2.from'.x) * (line1.from'.y - line2.from'.y) -
    (line2.to'.y - line2.from'.y) * (line1.from'.x - line2.from'.x)

/-- The `numerator2 = (x1-x0)(y0-y2) - (y1-y0)(x0-x2)` of
`line_line_intersection`. -/
def llNumerator2 (line1 line2 : Line) : ℝ :=
  (line1.to'.x - line1.from'.x) * (line1.from'.y - line2.from'.y) -
    (line1.to'.y - line1.from'.y) * (line1.from'.x - line2.from'.x)

/-- The `line_line_intersection` from `src/math.rs`. -/
def line_line_intersection (line1 line2 : Line) : Option Vector2 :=
  if llDenom line1 line2 ≠ 0 then
    let t1 := llNumerator1 line1 line2 / llDenom line1 line2
    let t2 := llNumerator2 line1 line2 / llDenom line1 line2
    if 0 ≤ t1 ∧ t1 ≤ 1 ∧ 0 ≤ t2 ∧ t2 ≤ 1 then
      some (line_fn line1.from' line1.to' t1)
    else none
  else none

/-! ### Claim C6: the quadratic root solver -/

/-- C6: `quadratic_roots(a, b, c)` implements the specified case analysis:
for `a = 0, b = 0` no roots; for `a = 0, b ≠ 0` the single root `-c/b`; for
`a ≠ 0` and discriminant `Δ = b² - 4ac`: no roots when `Δ < 0`, the single
root `-b/(2a)` when `Δ = 0`, and the two roots `(-b ∓ √Δ)/(2a)` when
`Δ > 0`. -/
theorem c6_quadratic_roots (a b c : ℝ) :
    (a = 0 → b = 0 → quadratic_roots a b c = (none, none)) ∧
    (a = 0 → b ≠ 0 → quadratic_roots a b c = (some (-c / b), none)) ∧
    (a ≠ 0 → b * b - 4 * a * c < 0 → quadratic_roots a b c = (none, none)) ∧
    (a ≠ 0 → b * b - 4 * a * c = 0 →
      quadratic_roots a b c = (some (-b / (2 * a)), none)) ∧
    (a ≠ 0 → 0 < b * b - 4 * a * c →
      quadratic_roots a b c =
        (some ((-b - Real.sqrt (b * b - 4 * a * c)) / (2 * a)),
         some ((-b + Real.sqrt (b * b - 4 * a * c)) / (2 * a)))) := by
  refine ⟨?_, ?_, ?_, ?_, ?_⟩
  · intro ha hb
    subst ha; subst hb
    simp [quadratic_roots]
  · intro ha hb
    subst ha
    simp [quadratic_roots, hb]
  · intro ha hd
    simp [quadratic_roots, ha, hd]
  · intro ha hd
    simp only [quadratic_roots, ha, if_false, hd, lt_irrefl, gt_iff_lt,
      if_neg (lt_irrefl (0 : ℝ))]
    refine congrArg (fun z => (some z, none)) ?_
    field_simp
  · intro ha hd
    simp only [quadratic_roots, gt_iff_lt]
    rw [if_neg ha, if_neg (not_lt_of_lt hd), if_pos hd]
    refine congrArg₂ (fun z w => (some z, some w)) ?_ ?_
    · field_simp
      ring
    · field_simp
      ring

/-- C6 witness: the solver at `t² - 1`: two roots `(−0 ∓ √4)/2`. -/
theorem c6_quadratic_roots_witness :
    (1 : ℝ) ≠ 0 ∧ (0 : ℝ) < 0 * 0 - 4 * 1 * (-1) ∧
      quadratic_roots 1 0 (-1) = (some (-1), some 1) := by
  refine ⟨by norm_num, by norm_num, ?_⟩
  have h := (c6_quadratic_roots 1 0 (-1)).2.2.2.2 (by norm_num) (by norm_num)
  rw [h]
  have hs : Real.sqrt (0 * 0 - 4 * 1 * (-1)) = 2 := by
    rw [show (0 * 0 - 4 * 1 * (-1) : ℝ) = 2 ^ 2 by norm_num]
    exact Real.sqrt_sq (by norm_num)
  rw [hs]
  norm_num

/-! ### Claim C7: the one-real-root branch of the cubic solver -/

/-- C7: whenever `cubic_roots` takes its one-real-root branch (`a ≠ 0` and
`r² > q³` on the normalized coefficients), the intermediate
`s = -sign(r)·∛(|r| + √(r² - q³))` is nonzero — so the division `q/s` in the
returned root `s + q/s - b/3` never divides by zero and the spec's provision
"if `s = 0`, treat `q/s` as `0`" is never needed.  (When `r = 0` the branch
condition forces `q³ < 0`, so the cube-root argument `√(-q³)` is positive;
when `r ≠ 0` already `|r| > 0`; and Rust's `signum` is `±1`, never `0`.) -/
theorem c7_cubic_s_nonzero (a b c d : ℝ) (ha : a ≠ 0)
    (hbr : cubicR (b / a) (c / a) (d / a) * cubicR (b / a) (c / a) (d / a) >
      cubicQ (b / a) (c / a) * cubicQ (b / a) (c / a) * cubicQ (b / a) (c / a)) :
    cubicS (b / a) (c / a) (d / a) ≠ 0 ∧
      cubic_roots a b c d =
        (some ((cubicS (b / a) (c / a) (d / a) +
            cubicQ (b / a) (c / a) / cubicS (b / a) (c / a) (d / a)) -
          b / a * (1 / 3)), none, none) := by
  constructor
  · have harg : 0 < |cubicR (b / a) (c / a) (d / a)| +
        Real.sqrt (cubicR (b / a) (c / a) (d / a) * cubicR (b / a) (c / a) (d / a) -
          cubicQ (b / a) (c / a) * cubicQ (b / a) (c / a) * cubicQ (b / a) (c / a)) := by
      rcases eq_or_ne (cubicR (b / a) (c / a) (d / a)) 0 with hr | hr
      · have hq : 0 < cubicR (b / a) (c / a) (d / a) * cubicR (b / a) (c / a) (d / a) -
            cubicQ (b / a) (c / a) * cubicQ (b / a) (c / a) * cubicQ (b / a) (c / a) := by
          linarith
        have := Real.sqrt_pos.mpr hq
        have habs : (0 : ℝ) ≤ |cubicR (b / a) (c / a) (d / a)| := abs_nonneg _
        linarith
      · have habs : 0 < |cubicR (b / a) (c / a) (d / a)| := abs_pos.mpr hr
        have hsq : (0 : ℝ) ≤
            Real.sqrt (cubicR (b / a) (c / a) (d / a) * cubicR (b / a) (c / a) (d / a) -
              cubicQ (b / a) (c / a) * cubicQ (b / a) (c / a) * cubicQ (b / a) (c / a)) :=
          Real.sqrt_nonneg _
        linarith
    have hcbrt : 0 < rustCbrt (|cubicR (b / a) (c / a) (d / a)| +
        Real.sqrt (cubicR (b / a) (c / a) (d / a) * cubicR (b / a) (c / a) (d / a) -
          cubicQ (b / a) (c / a) * cubicQ (b / a) (c / a) * cubicQ (b / a) (c / a))) := by
      rw [rustCbrt, if_pos (le_of_lt harg)]
      exact Real.rpow_pos_of_pos harg _
    have hsgn : rustSignum (cubicR (b / a) (c / a) (d / a)) = 1 ∨
        rustSignum (cubicR (b / a) (c / a) (d / a)) = -1 := by
      rw [rustSignum]
      split
      · exact Or.inl rfl
      · exact Or.inr rfl
    rw [cubicS]
    rcases hsgn with h | h
    · rw [h]; intro hcon; rw [neg_one_mul] at hcon
      exact absurd (neg_eq_zero.mp hcon) (ne_of_gt hcbrt)
    · rw [h]; intro hcon; rw [neg_neg, one_mul] at hcon
      exact absurd hcon (ne_of_gt hcbrt)
  · rw [cubic_roots]
    rw [if_neg ha, if_pos hbr]

/-- C7 witness: at `t³ + 1` (coefficients `1, 0, 0, 1`) the branch condition
holds and the theorem yields a nonzero `s`. -/
theorem c7_cubic_s_nonzero_witness :
    (1 : ℝ) ≠ 0 ∧
      cubicR (0 / 1) (0 / 1) (1 / 1) * cubicR (0 / 1) (0 / 1) (1 / 1) >
        cubicQ (0 / 1) (0 / 1) * cubicQ (0 / 1) (0 / 1) * cubicQ (0 / 1) (0 / 1) ∧
      cubicS (0 / 1) (0 / 1) (1 / 1) ≠ 0 := by
  refine ⟨by norm_num, by norm_num [cubicR, cubicQ], ?_⟩
  exact (c7_cubic_s_nonzero 1 0 0 1 (by norm_num) (by norm_num [cubicR, cubicQ])).1

/-! ### Claim C1: the `Distance` comparison rule -/

/-- C1 counterexample: the claim says that when `|a.real_dist − b.real_dist|`
is not `< 0.01` the value with the smaller `real_dist` is preferred; but at
`|a.real_dist − b.real_dist| = 0.01` exactly, the code's `Equal` arm compares
orthogonalities instead, so `a` (smaller `real_dist`, smaller orthogonality)
is not preferred: `partial_cmp` reports `a` greater than `b`. -/
theorem c1_cmp_counterexample :
    ¬ |(Distance.mk 0 0 0 0).real_dist - (Distance.mk 0 (1 / 100) 1 0).real_dist| < 1 / 100 ∧
      (Distance.mk 0 0 0 0).real_dist < (Distance.mk 0 (1 / 100) 1 0).real_dist ∧
      Distance.pcmp (Distance.mk 0 0 0 0) (Distance.mk 0 (1 / 100) 1 0) = some Ordering.gt := by
  have e1 : |(Distance.mk 0 0 0 0).real_dist - (Distance.mk 0 (1 / 100) 1 0).real_dist|
      = 1 / 100 := by
    show |(0 : ℝ) - 1 / 100| = 1 / 100
    rw [abs_sub_comm, abs_of_nonneg (by norm_num : (0 : ℝ) ≤ 1 / 100 - 0)]
    norm_num
  refine ⟨by rw [e1]; norm_num, by show (0 : ℝ) < 1 / 100; norm_num, ?_⟩
  rw [Distance.pcmp_of_eq e1]
  have h2 : compare (Distance.mk 0 (1 / 100) 1 0).orthogonality
      (Distance.mk 0 0 0 0).orthogonality = Ordering.gt := by
    rw [compare_gt_iff_gt]
    show (0 : ℝ) < 1
    norm_num
  rw [h2]

/-- C1 amended: if `|a.real_dist − b.real_dist| ≤ 0.01` (strictly less than
or exactly equal to the tolerance) the value with the larger orthogonality is
preferred (the comparison is that of the orthogonalities, swapped); if
`|a.real_dist − b.real_dist| > 0.01` the value with the smaller `real_dist`
is preferred. -/
theorem c1_cmp_amended (a b : Distance) :
    (|a.real_dist - b.real_dist| ≤ 1 / 100 →
      Distance.pcmp a b = some (compare b.orthogonality a.orthogonality)) ∧
    (1 / 100 < |a.real_dist - b.real_dist| →
      Distance.pcmp a b = some (compare a.real_dist b.real_dist)) := by
  constructor
  · intro h
    rcases lt_or_eq_of_le h with h' | h'
    · exact Distance.pcmp_of_lt h'
    · exact Distance.pcmp_of_eq h'
  · intro h
    exact Distance.pcmp_of_gt h

/-- C1 witness: the amended rule applied at a concrete pair in each regime. -/
theorem c1_cmp_witness :
    (|(Distance.mk 0 (2 / 100) 1 0).real_dist - (Distance.mk 0 0 0 0).real_dist| ≤ 1 / 100 → False) ∧
      (1 / 100 < |(Distance.mk 0 (2 / 100) 1 0).real_dist - (Distance.mk 0 0 0 0).real_dist|) ∧
      Distance.pcmp (Distance.mk 0 (2 / 100) 1 0) (Distance.mk 0 0 0 0) =
        some (compare (Distance.mk 0 (2 / 100) 1 0).real_dist (Distance.mk 0 0 0 0).real_dist) := by
  have e1 : |(Distance.mk 0 (2 / 100) 1 0).real_dist - (Distance.mk 0 0 0 0).real_dist|
      = 2 / 100 := by
    show |(2 / 100 : ℝ) - 0| = 2 / 100
    rw [abs_of_nonneg (by norm_num : (0 : ℝ) ≤ 2 / 100 - 0)]
    norm_num
  refine ⟨fun h => by rw [e1] at h; norm_num at h, by rw [e1]; norm_num, ?_⟩
  exact (c1_cmp_amended (Distance.mk 0 (2 / 100) 1 0) (Distance.mk 0 0 0 0)).2
    (by rw [e1]; norm_num)

/-! ### Claim C9: line-line intersection -/

/-- The `llDenom` is the 2D cross product of the two direction vectors. -/
theorem llDenom_eq_cross (line1 line2 : Line) :
    llDenom line1 line2 =
      (line1.to' - line1.from').cross (line2.to' - line2.from') := by
  simp only [llDenom, Vector2.cross, Vector2.sub_def]
  ring

/-- C9: `line_line_intersection` returns no intersection whenever the two
direction vectors are parallel (cross product zero), which covers both
parallel non-coincident and coincident input segments; and when the segments
properly cross — directions not parallel and the segments meeting at
parameters `s1, s2` that both lie within `[0,1]` — it returns exactly that
crossing point (the parameters computed internally agree with `s1`, `s2` and
pass the `[0,1]` containment test). -/
theorem c9_line_line_intersection :
    (∀ line1 line2 : Line,
      (line1.to' - line1.from').cross (line2.to' - line2.from') = 0 →
      line_line_intersection line1 line2 = none) ∧
    (∀ line1 line2 : Line, ∀ s1 s2 : ℝ,
      (line1.to' - line1.from').cross (line2.to' - line2.from') ≠ 0 →
      0 ≤ s1 → s1 ≤ 1 → 0 ≤ s2 → s2 ≤ 1 →
      line_fn line1.from' line1.to' s1 = line_fn line2.from' line2.to' s2 →
      line_line_intersection line1 line2 = some (line_fn line1.from' line1.to' s1)) := by
  constructor
  · intro line1 line2 h
    have hd : llDenom line1 line2 = 0 := by rw [llDenom_eq_cross]; exact h
    rw [line_line_intersection, if_neg (not_not_intro hd)]
  · intro line1 line2 s1 s2 h h0 h1 h0' h1' hmeet
    have hd : llDenom line1 line2 ≠ 0 := by rw [llDenom_eq_cross]; exact h
    have hx := congrArg Vector2.x hmeet
    have hy := congrArg Vector2.y hmeet
    simp only [line_fn, Vector2.add_def, Vector2.sub_def, Vector2.smul_def] at hx hy
    have hn1 : llNumerator1 line1 line2 = s1 * llDenom line1 line2 := by
      simp only [llNumerator1, llDenom]
      linear_combination (line2.to'.x - line2.from'.x) * hy -
        (line2.to'.y - line2.from'.y) * hx
    have hn2 : llNumerator2 line1 line2 = s2 * llDenom line1 line2 := by
      simp only [llNumerator2, llDenom]
      linear_combination (line1.to'.x - line1.from'.x) * hy -
        (line1.to'.y - line1.from'.y) * hx
    have e1 : llNumerator1 line1 line2 / llDenom line1 line2 = s1 := by
      rw [hn1]; field_simp
    have e2 : llNumerator2 line1 line2 / llDenom line1 line2 = s2 := by
      rw [hn2]; field_simp
    rw [line_line_intersection, if_pos hd]
    simp only [e1, e2]
    rw [if_pos ⟨h0, h1, h0', h1'⟩]

/-- C9 witness: the diagonals of the unit-2 square cross at `(1,1)` with both
parameters `1/2`. -/
theorem c9_line_line_intersection_witness :
    ((Line.mk ⟨0, 0⟩ ⟨2, 2⟩).to' - (Line.mk ⟨0, 0⟩ ⟨2, 2⟩).from').cross
        ((Line.mk ⟨0, 2⟩ ⟨2, 0⟩).to' - (Line.mk ⟨0, 2⟩ ⟨2, 0⟩).from') ≠ 0 ∧
      (0 : ℝ) ≤ 1 / 2 ∧ (1 / 2 : ℝ) ≤ 1 ∧
      line_fn (⟨0, 0⟩ : Vector2) ⟨2, 2⟩ (1 / 2) = line_fn (⟨0, 2⟩ : Vector2) ⟨2, 0⟩ (1 / 2) ∧
      line_line_intersection (Line.mk ⟨0, 0⟩ ⟨2, 2⟩) (Line.mk ⟨0, 2⟩ ⟨2, 0⟩) =
        some (line_fn (⟨0, 0⟩ : Vector2) ⟨2, 2⟩ (1 / 2)) := by
  have hc : ((Line.mk (⟨0, 0⟩ : Vector2) ⟨2, 2⟩).to' - (Line.mk (⟨0, 0⟩ : Vector2) ⟨2, 2⟩).from').cross
      ((Line.mk (⟨0, 2⟩ : Vector2) ⟨2, 0⟩).to' - (Line.mk (⟨0, 2⟩ : Vector2) ⟨2, 0⟩).from') = -8 := by
    simp only [Vector2.cross, Vector2.sub_def]
    norm_num
  have hmeet : line_fn (⟨0, 0⟩ : Vector2) ⟨2, 2⟩ (1 / 2) =
      line_fn (⟨0, 2⟩ : Vector2) ⟨2, 0⟩ (1 / 2) := by
    simp only [line_fn, Vector2.add_def, Vector2.sub_def, Vector2.smul_def]
    norm_num
  refine ⟨by rw [hc]; norm_num, by norm_num, by norm_num, hmeet, ?_⟩
  exact c9_line_line_intersection.2 (Line.mk ⟨0, 0⟩ ⟨2, 2⟩) (Line.mk ⟨0, 2⟩ ⟨2, 0⟩)
    (1 / 2) (1 / 2) (by rw [hc]; norm_num) (by norm_num) (by norm_num)
    (by norm_num) (by norm_num) hmeet

/-! ### Evaluation helpers for concrete inputs -/

theorem clamp01_of_mem {t : ℝ} (h0 : 0 ≤ t) (h1 : t ≤ 1) : clamp01 t = t := by
  rw [clamp01, max_eq_left h0, min_eq_left h1]

theorem clamp01_of_nonpos {t : ℝ} (h : t ≤ 0) : clamp01 t = 0 := by
  rw [clamp01, max_eq_right h, min_eq_left zero_le_one]

theorem magnitude_eval {v : Vector2} {r : ℝ} (h : v.x * v.x + v.y * v.y = r * r)
    (hr : 0 ≤ r) : v.magnitude = r := by
  rw [Vector2.magnitude, Vector2.magnitude2, h, show r * r = r ^ 2 by ring,
    Real.sqrt_sq hr]

theorem normalize_eval {v : Vector2} {r : ℝ} (h : v.x * v.x + v.y * v.y = r * r)
    (hr : 0 ≤ r) : v.normalize = ⟨v.x / r, v.y / r⟩ := by
  rw [Vector2.normalize, magnitude_eval h hr]

/-- Evaluation scheme for `line_signed_distance` from precomputed pieces. -/
theorem line_signed_distance_eval (l : Line) (p : Vector2) {tpos rpos rd ed och : ℝ}
    {bz eb : Vector2}
    (htpos : lineExtPos l p = tpos)
    (hrpos : clamp01 tpos = rpos)
    (hbz : l.from' + rpos * (l.to' - l.from') = bz)
    (heb : l.from' + tpos * (l.to' - l.from') = eb)
    (hrd : (bz - p).magnitude = rd)
    (hed : (eb - p).magnitude = ed)
    (hoch : (if (-(bz - p)).isZero then (0 : ℝ)
      else (l.to' - l.from').normalize.cross (-(bz - p)).normalize) = och) :
    line_signed_distance l p = ⟨ed, rd, |och|, rustSignum och⟩ := by
  simp only [line_signed_distance, lineClosest, lineRealPos]
  rw [htpos, hrpos, hbz, heb, hrd, hed, hoch]

/-! ### Claim C2: the contour distance reduction -/

theorem distReduce_cases (a d : Distance) : distReduce a d = a ∨ distReduce a d = d := by
  unfold distReduce
  split
  · exact Or.inl rfl
  · exact Or.inr rfl

theorem foldl_distReduce_mem (ds : List Distance) (a : Distance) :
    ds.foldl distReduce a = a ∨ ds.foldl distReduce a ∈ ds := by
  induction ds generalizing a with
  | nil => exact Or.inl rfl
  | cons d rest ih =>
    simp only [List.foldl_cons]
    rcases ih (distReduce a d) with h | h
    · rcases distReduce_cases a d with h2 | h2
      · exact Or.inl (by rw [h, h2])
      · exact Or.inr (by rw [h, h2]; exact List.mem_cons_self _ _)
    · exact Or.inr (List.mem_cons_of_mem _ h)

theorem segDistances_mem {segs : List Segment} {p : Vector2} {ds : List Distance}
    (h : segDistances segs p = some ds) :
    ∀ d ∈ ds, ∃ s ∈ segs, s.distQ p = some d := by
  induction segs generalizing ds with
  | nil =>
    simp only [segDistances, Option.some.injEq] at h
    subst h
    intro d hd
    exact absurd hd (List.not_mem_nil d)
  | cons s rest ih =>
    unfold segDistances at h
    cases hs : Segment.distQ s p with
    | none => rw [hs] at h; exact absurd h (by simp)
    | some d0 =>
      rw [hs] at h
      cases hr : segDistances rest p with
      | none => rw [hr] at h; exact absurd h (by simp)
      | some ds0 =>
        rw [hr] at h
        simp only [Option.some.injEq] at h
        subst h
        intro d hd
        rcases List.mem_cons.mp hd with h1 | h1
        · exact ⟨s, List.mem_cons_self _ _, by rw [hs, h1]⟩
        · obtain ⟨s1, hs1, hd1⟩ := ih hr d h1
          exact ⟨s1, List.mem_cons_of_mem _ hs1, hd1⟩

/-- C2 amended: `Contour::distance` returns the left-to-right pairwise
reduction of its segments' `Distance` values under the §4.3 comparison
(keeping the accumulator exactly when it compares strictly less than the next
item); the result is always the `Distance` of one of the contour's segments.
Because the tolerance comparison is not transitive, the result need not be a
minimum among them (see the counterexample). -/
theorem c2_contour_distance_amended (c : Contour) (p : Vector2) (d : Distance)
    (h : Contour.distance c p = some d) :
    ∃ s ∈ c.segments, s.distQ p = some d := by
  unfold Contour.distance at h
  cases hsd : segDistances c.segments p with
  | none => rw [hsd] at h; exact absurd h (by simp)
  | some ds =>
    rw [hsd] at h
    cases ds with
    | nil => exact absurd h (by simp)
    | cons d0 rest =>
      simp only [Option.some.injEq] at h
      rcases foldl_distReduce_mem rest d0 with h1 | h1
      · exact segDistances_mem hsd d (by rw [← h, h1]; exact List.mem_cons_self _ _)
      · exact segDistances_mem hsd d (by rw [← h]; exact List.mem_cons_of_mem _ h1)

/-- C2 witness: a one-segment contour (the line `(0,0) → (2,0)` probed from
`(1,3)`) where the returned value is that segment's `Distance`. -/
theorem c2_contour_distance_witness :
    Contour.distance (Contour.mk [Segment.line (Line.mk ⟨0, 0⟩ ⟨2, 0⟩)] (Winding.mk true))
        ⟨1, 3⟩ = some (Distance.mk 3 3 1 1) ∧
      ∃ s ∈ (Contour.mk [Segment.line (Line.mk ⟨0, 0⟩ ⟨2, 0⟩)] (Winding.mk true)).segments,
        s.distQ ⟨1, 3⟩ = some (Distance.mk 3 3 1 1) := by
  have h1 : lineExtPos (Line.mk ⟨0, 0⟩ ⟨2, 0⟩) ⟨1, 3⟩ = 1 / 2 := by
    simp only [lineExtPos, Vector2.dot, Vector2.sub_def]
    norm_num
  have h2 : clamp01 (1 / 2 : ℝ) = 1 / 2 := clamp01_of_mem (by norm_num) (by norm_num)
  have h3 : (Line.mk (⟨0, 0⟩ : Vector2) ⟨2, 0⟩).from' +
      (1 / 2 : ℝ) * ((Line.mk (⟨0, 0⟩ : Vector2) ⟨2, 0⟩).to' -
        (Line.mk (⟨0, 0⟩ : Vector2) ⟨2, 0⟩).from') = (⟨1, 0⟩ : Vector2) := by
    simp only [Vector2.add_def, Vector2.sub_def, Vector2.smul_def]
    norm_num
  have h5 : ((⟨1, 0⟩ : Vector2) - ⟨1, 3⟩).magnitude = 3 := by
    refine magnitude_eval ?_ (by norm_num)
    simp only [Vector2.sub_def]
    norm_num
  have h7 : (if (-((⟨1, 0⟩ : Vector2) - ⟨1, 3⟩)).isZero then (0 : ℝ)
      else ((Line.mk (⟨0, 0⟩ : Vector2) ⟨2, 0⟩).to' -
        (Line.mk (⟨0, 0⟩ : Vector2) ⟨2, 0⟩).from').normalize.cross
          (-((⟨1, 0⟩ : Vector2) - ⟨1, 3⟩)).normalize) = 1 := by
    rw [if_neg (by simp [Vector2.isZero, Vector2.neg_def, Vector2.sub_def])]
    rw [normalize_eval (r := 2) (by simp only [Vector2.sub_def]; norm_num) (by norm_num),
      normalize_eval (r := 3) (by simp only [Vector2.neg_def, Vector2.sub_def]; norm_num)
        (by norm_num)]
    simp only [Vector2.cross, Vector2.neg_def, Vector2.sub_def]
    norm_num
  have hline : line_signed_distance (Line.mk ⟨0, 0⟩ ⟨2, 0⟩) ⟨1, 3⟩ = Distance.mk 3 3 1 1 := by
    rw [line_signed_distance_eval (Line.mk ⟨0, 0⟩ ⟨2, 0⟩) ⟨1, 3⟩ h1 h2 h3 h3 h5 h5 h7]
    rw [abs_of_nonneg (zero_le_one), rustSignum, if_pos zero_le_one]
  have hc : Contour.distance
      (Contour.mk [Segment.line (Line.mk ⟨0, 0⟩ ⟨2, 0⟩)] (Winding.mk true)) ⟨1, 3⟩ =
      some (Distance.mk 3 3 1 1) := by
    simp only [Contour.distance, segDistances, Segment.distQ, hline, List.foldl_nil]
  exact ⟨hc, c2_contour_distance_amended _ _ _ hc⟩

/-- C2 counterexample: a closed triangular contour (vertices
`A = (-2.015, -1)`, `B = (2.0075, -1)`, `C = (-0.00375, 1009/600)`, probed
from the interior point `(0,0)`) whose three sides have real distances
`1`, `1.006`, `1.012` and orthogonality `1` each.  Successive sides tie
within the `0.01` tolerance, so the reduction drifts to the third side's
`Distance` — but the first side's `Distance` compares strictly below the
returned one (their reals differ by `0.012 > 0.01`), so the returned value is
not the minimum under the §4.3 comparison. -/
theorem c2_contour_distance_counterexample :
    Contour.distance
        (Contour.mk
          [Segment.line (Line.mk ⟨-403 / 200, -1⟩ ⟨803 / 400, -1⟩),
           Segment.line (Line.mk ⟨803 / 400, -1⟩ ⟨-3 / 800, 1009 / 600⟩),
           Segment.line (Line.mk ⟨-3 / 800, 1009 / 600⟩ ⟨-403 / 200, -1⟩)]
          (Winding.mk true)) ⟨0, 0⟩ =
      some (Distance.mk (253 / 250) (253 / 250) 1 1) ∧
    Segment.distQ (Segment.line (Line.mk ⟨-403 / 200, -1⟩ ⟨803 / 400, -1⟩)) ⟨0, 0⟩ =
      some (Distance.mk 1 1 1 1) ∧
    Distance.pcmp (Distance.mk 1 1 1 1) (Distance.mk (253 / 250) (253 / 250) 1 1) =
      some Ordering.lt := by
  -- side 1: A → B (real distance 1, orthogonality 1)
  have h11 : lineExtPos (Line.mk ⟨-403 / 200, -1⟩ ⟨803 / 400, -1⟩) ⟨0, 0⟩ = 806 / 1609 := by
    simp only [lineExtPos, Vector2.dot, Vector2.sub_def]
    norm_num
  have h12 : clamp01 ((806 : ℝ) / 1609) = 806 / 1609 :=
    clamp01_of_mem (by norm_num) (by norm_num)
  have h13 : (Line.mk (⟨-403 / 200, -1⟩ : Vector2) ⟨803 / 400, -1⟩).from' +
      ((806 : ℝ) / 1609) * ((Line.mk (⟨-403 / 200, -1⟩ : Vector2) ⟨803 / 400, -1⟩).to' -
        (Line.mk (⟨-403 / 200, -1⟩ : Vector2) ⟨803 / 400, -1⟩).from') = (⟨0, -1⟩ : Vector2) := by
    simp only [Vector2.add_def, Vector2.sub_def, Vector2.smul_def]
    norm_num
  have h15 : ((⟨0, -1⟩ : Vector2) - ⟨0, 0⟩).magnitude = 1 := by
    refine magnitude_eval ?_ (by norm_num)
    simp only [Vector2.sub_def]
    norm_num
  have h17 : (if (-((⟨0, -1⟩ : Vector2) - ⟨0, 0⟩)).isZero then (0 : ℝ)
      else ((Line.mk (⟨-403 / 200, -1⟩ : Vector2) ⟨803 / 400, -1⟩).to' -
        (Line.mk (⟨-403 / 200, -1⟩ : Vector2) ⟨803 / 400, -1⟩).from').normalize.cross
          (-((⟨0, -1⟩ : Vector2) - ⟨0, 0⟩)).normalize) = 1 := by
    rw [if_neg (by simp [Vector2.isZero, Vector2.neg_def, Vector2.sub_def])]
    rw [normalize_eval (r := 1609 / 400) (by simp only [Vector2.sub_def]; norm_num)
        (by norm_num),
      normalize_eval (r := 1) (by simp only [Vector2.neg_def, Vector2.sub_def]; norm_num)
        (by norm_num)]
    simp only [Vector2.cross, Vector2.neg_def, Vector2.sub_def]
    norm_num
  have hL1 : line_signed_distance (Line.mk ⟨-403 / 200, -1⟩ ⟨803 / 400, -1⟩) ⟨0, 0⟩ =
      Distance.mk 1 1 1 1 := by
    rw [line_signed_distance_eval _ _ h11 h12 h13 h13 h15 h15 h17]
    rw [abs_of_nonneg (zero_le_one), rustSignum, if_pos zero_le_one]
  -- side 2: B → C (real distance 1.006, orthogonality 1)
  have h21 : lineExtPos (Line.mk ⟨803 / 400, -1⟩ ⟨-3 / 800, 1009 / 600⟩) ⟨0, 0⟩ =
      24054 / 40225 := by
    simp only [lineExtPos, Vector2.dot, Vector2.sub_def]
    norm_num
  have h22 : clamp01 ((24054 : ℝ) / 40225) = 24054 / 40225 :=
    clamp01_of_mem (by norm_num) (by norm_num)
  have h23 : (Line.mk (⟨803 / 400, -1⟩ : Vector2) ⟨-3 / 800, 1009 / 600⟩).from' +
      ((24054 : ℝ) / 40225) * ((Line.mk (⟨803 / 400, -1⟩ : Vector2) ⟨-3 / 800, 1009 / 600⟩).to' -
        (Line.mk (⟨803 / 400, -1⟩ : Vector2) ⟨-3 / 800, 1009 / 600⟩).from') =
      (⟨503 / 625, 1509 / 2500⟩ : Vector2) := by
    simp only [Vector2.add_def, Vector2.sub_def, Vector2.smul_def]
    norm_num
  have h25 : ((⟨503 / 625, 1509 / 2500⟩ : Vector2) - ⟨0, 0⟩).magnitude = 503 / 500 := by
    refine magnitude_eval ?_ (by norm_num)
    simp only [Vector2.sub_def]
    norm_num
  have h27 : (if (-((⟨503 / 625, 1509 / 2500⟩ : Vector2) - ⟨0, 0⟩)).isZero then (0 : ℝ)
      else ((Line.mk (⟨803 / 400, -1⟩ : Vector2) ⟨-3 / 800, 1009 / 600⟩).to' -
        (Line.mk (⟨803 / 400, -1⟩ : Vector2) ⟨-3 / 800, 1009 / 600⟩).from').normalize.cross
          (-((⟨503 / 625, 1509 / 2500⟩ : Vector2) - ⟨0, 0⟩)).normalize) = 1 := by
    rw [if_neg (by simp [Vector2.isZero, Vector2.neg_def, Vector2.sub_def])]
    rw [normalize_eval (r := 1609 / 480) (by simp only [Vector2.sub_def]; norm_num)
        (by norm_num),
      normalize_eval (r := 503 / 500)
        (by simp only [Vector2.neg_def, Vector2.sub_def]; norm_num) (by norm_num)]
    simp only [Vector2.cross, Vector2.neg_def, Vector2.sub_def]
    norm_num
  have hL2 : line_signed_distance (Line.mk ⟨803 / 400, -1⟩ ⟨-3 / 800, 1009 / 600⟩) ⟨0, 0⟩ =
      Distance.mk (503 / 500) (503 / 500) 1 1 := by
    rw [line_signed_distance_eval _ _ h21 h22 h23 h23 h25 h25 h27]
    rw [abs_of_nonneg (zero_le_one), rustSignum, if_pos zero_le_one]
  -- side 3: C → A (real distance 1.012, orthogonality 1)
  have h31 : lineExtPos (Line.mk ⟨-3 / 800, 1009 / 600⟩ ⟨-403 / 200, -1⟩) ⟨0, 0⟩ =
      16117 / 40225 := by
    simp only [lineExtPos, Vector2.dot, Vector2.sub_def]
    norm_num
  have h32 : clamp01 ((16117 : ℝ) / 40225) = 16117 / 40225 :=
    clamp01_of_mem (by norm_num) (by norm_num)
  have h33 : (Line.mk (⟨-3 / 800, 1009 / 600⟩ : Vector2) ⟨-403 / 200, -1⟩).from' +
      ((16117 : ℝ) / 40225) * ((Line.mk (⟨-3 / 800, 1009 / 600⟩ : Vector2) ⟨-403 / 200, -1⟩).to' -
        (Line.mk (⟨-3 / 800, 1009 / 600⟩ : Vector2) ⟨-403 / 200, -1⟩).from') =
      (⟨-506 / 625, 759 / 1250⟩ : Vector2) := by
    simp only [Vector2.add_def, Vector2.sub_def, Vector2.smul_def]
    norm_num
  have h35 : ((⟨-506 / 625, 759 / 1250⟩ : Vector2) - ⟨0, 0⟩).magnitude = 253 / 250 := by
    refine magnitude_eval ?_ (by norm_num)
    simp only [Vector2.sub_def]
    norm_num
  have h37 : (if (-((⟨-506 / 625, 759 / 1250⟩ : Vector2) - ⟨0, 0⟩)).isZero then (0 : ℝ)
      else ((Line.mk (⟨-3 / 800, 1009 / 600⟩ : Vector2) ⟨-403 / 200, -1⟩).to' -
        (Line.mk (⟨-3 / 800, 1009 / 600⟩ : Vector2) ⟨-403 / 200, -1⟩).from').normalize.cross
          (-((⟨-506 / 625, 759 / 1250⟩ : Vector2) - ⟨0, 0⟩)).normalize) = 1 := by
    rw [if_neg (by simp [Vector2.isZero, Vector2.neg_def, Vector2.sub_def])]
    rw [normalize_eval (r := 1609 / 480) (by simp only [Vector2.sub_def]; norm_num)
        (by norm_num),
      normalize_eval (r := 253 / 250)
        (by simp only [Vector2.neg_def, Vector2.sub_def]; norm_num) (by norm_num)]
    simp only [Vector2.cross, Vector2.neg_def, Vector2.sub_def]
    norm_num
  have hL3 : line_signed_distance (Line.mk ⟨-3 / 800, 1009 / 600⟩ ⟨-403 / 200, -1⟩) ⟨0, 0⟩ =
      Distance.mk (253 / 250) (253 / 250) 1 1 := by
    rw [line_signed_distance_eval _ _ h31 h32 h33 h33 h35 h35 h37]
    rw [abs_of_nonneg (zero_le_one), rustSignum, if_pos zero_le_one]
  -- the reduction: ties on consecutive sides drift to side 3
  have hp12 : Distance.pcmp (Distance.mk 1 1 1 1)
      (Distance.mk (503 / 500) (503 / 500) 1 1) = some Ordering.eq := by
    have habs : |(Distance.mk 1 1 1 1).real_dist -
        (Distance.mk (503 / 500) (503 / 500) 1 1).real_dist| < 1 / 100 := by
      show |(1 : ℝ) - 503 / 500| < 1 / 100
      rw [abs_sub_comm, abs_of_nonneg (by norm_num : (0 : ℝ) ≤ 503 / 500 - 1)]
      norm_num
    rw [Distance.pcmp_of_lt habs]
    rw [show compare (Distance.mk (503 / 500) (503 / 500) 1 1).orthogonality
        (Distance.mk 1 1 1 1).orthogonality = Ordering.eq from compare_eq_iff_eq.mpr rfl]
  have hp23 : Distance.pcmp (Distance.mk (503 / 500) (503 / 500) 1 1)
      (Distance.mk (253 / 250) (253 / 250) 1 1) = some Ordering.eq := by
    have habs : |(Distance.mk (503 / 500) (503 / 500) 1 1).real_dist -
        (Distance.mk (253 / 250) (253 / 250) 1 1).real_dist| < 1 / 100 := by
      show |(503 / 500 : ℝ) - 253 / 250| < 1 / 100
      rw [abs_sub_comm, abs_of_nonneg (by norm_num : (0 : ℝ) ≤ 253 / 250 - 503 / 500)]
      norm_num
    rw [Distance.pcmp_of_lt habs]
    rw [show compare (Distance.mk (253 / 250) (253 / 250) 1 1).orthogonality
        (Distance.mk (503 / 500) (503 / 500) 1 1).orthogonality = Ordering.eq from
      compare_eq_iff_eq.mpr rfl]
  have hd12 : distReduce (Distance.mk 1 1 1 1) (Distance.mk (503 / 500) (503 / 500) 1 1) =
      Distance.mk (503 / 500) (503 / 500) 1 1 := by
    simp only [distReduce, hp12]
    simp
  have hd23 : distReduce (Distance.mk (503 / 500) (503 / 500) 1 1)
      (Distance.mk (253 / 250) (253 / 250) 1 1) =
      Distance.mk (253 / 250) (253 / 250) 1 1 := by
    simp only [distReduce, hp23]
    simp
  refine ⟨?_, ?_, ?_⟩
  · simp only [Contour.distance, segDistances, Segment.distQ, hL1, hL2, hL3,
      List.foldl_cons, List.foldl_nil, hd12, hd23]
  · simp only [Segment.distQ, hL1]
  · have habs : 1 / 100 < |(Distance.mk 1 1 1 1).real_dist -
        (Distance.mk (253 / 250) (253 / 250) 1 1).real_dist| := by
      show 1 / 100 < |(1 : ℝ) - 253 / 250|
      rw [abs_sub_comm, abs_of_nonneg (by norm_num : (0 : ℝ) ≤ 253 / 250 - 1)]
      norm_num
    rw [Distance.pcmp_of_gt habs]
    rw [show compare (Distance.mk 1 1 1 1).real_dist
        (Distance.mk (253 / 250) (253 / 250) 1 1).real_dist = Ordering.lt from
      compare_lt_iff_lt.mpr (by show (1 : ℝ) < 253 / 250; norm_num)]

/-! ### Claim C5: the degenerate-guard fallback of the distance queries -/

/-- C5 counterexample: for the quadratic query on the quad
`((0,0),(1,0),(2,0))` probed at `(1,0)` — a point on the curve, so the
vector from the closest point to the probe is zero and the code's guard
fires — the returned `Distance` has `orthogonality = 0` but `sign = 1`,
not `sign = 0` as claimed: Rust's `f32::signum` maps `+0.0` to `1.0`. -/
theorem c5_fallback_counterexample :
    ((⟨1, 0⟩ : Vector2) -
        (quadBest (Quad.mk ⟨0, 0⟩ ⟨1, 0⟩ ⟨2, 0⟩) ⟨1, 0⟩).closest_bezier).isZero ∧
      (quad_signed_distance (Quad.mk ⟨0, 0⟩ ⟨1, 0⟩ ⟨2, 0⟩) ⟨1, 0⟩).orthogonality = 0 ∧
      (quad_signed_distance (Quad.mk ⟨0, 0⟩ ⟨1, 0⟩ ⟨2, 0⟩) ⟨1, 0⟩).sign = 1 ∧
      (quad_signed_distance (Quad.mk ⟨0, 0⟩ ⟨1, 0⟩ ⟨2, 0⟩) ⟨1, 0⟩).sign ≠ 0 := by
  have hroots : cubic_roots 0 0 2 (-1) = (some (1 / 2), none, none) := by
    simp only [cubic_roots, quadratic_roots]
    norm_num
  have hbest : quadBest (Quad.mk ⟨0, 0⟩ ⟨1, 0⟩ ⟨2, 0⟩) ⟨1, 0⟩ =
      QuadAcc.mk (1 / 2) (1 / 2) ⟨1, 0⟩ 0 := by
    have ea : ((Quad.mk (⟨0, 0⟩ : Vector2) ⟨1, 0⟩ ⟨2, 0⟩).to' -
        (2 : ℝ) * (Quad.mk (⟨0, 0⟩ : Vector2) ⟨1, 0⟩ ⟨2, 0⟩).ctrl +
        (Quad.mk (⟨0, 0⟩ : Vector2) ⟨1, 0⟩ ⟨2, 0⟩).from') = (⟨0, 0⟩ : Vector2) := by
      simp only [Vector2.sub_def, Vector2.add_def, Vector2.smul_def]
      norm_num
    simp only [quadBest, ea, Vector2.dot, Vector2.sub_def, Vector2.add_def,
      Vector2.smul_def]
    norm_num [hroots]
    norm_num [quadStep, clamp01, min_def, max_def, fMAX, Vector2.magnitude2,
      Vector2.sub_def, Vector2.add_def, Vector2.smul_def, QuadAcc.mk.injEq]
  have hguard : ((⟨1, 0⟩ : Vector2) -
      (quadBest (Quad.mk ⟨0, 0⟩ ⟨1, 0⟩ ⟨2, 0⟩) ⟨1, 0⟩).closest_bezier).isZero := by
    rw [hbest]
    simp [Vector2.isZero, Vector2.sub_def]
  have hq : (quad_signed_distance (Quad.mk ⟨0, 0⟩ ⟨1, 0⟩ ⟨2, 0⟩) ⟨1, 0⟩).orthogonality = 0 ∧
      (quad_signed_distance (Quad.mk ⟨0, 0⟩ ⟨1, 0⟩ ⟨2, 0⟩) ⟨1, 0⟩).sign = 1 := by
    simp only [quad_signed_distance]
    rw [if_pos (Or.inl hguard)]
    constructor
    · exact abs_zero
    · rw [rustSignum, if_pos le_rfl]
  exact ⟨hguard, hq.1, hq.2, by rw [hq.2]; norm_num⟩

/-- C5 amended: in the line query (with a nonzero direction vector), whenever
the vector from the computed closest point to the probe is zero, and in the
quadratic query, whenever that vector is zero or the tangent at the closest
point is zero (the code's guard), the returned `Distance` has
`orthogonality = 0` and `sign = 1` — not `sign = 0`: the fallback computes
`ortho = 0.0` and Rust's `f32::signum(+0.0) = 1.0`.  (A zero line direction
is not guarded by the line query at all; it produces NaN positions — see the
C4 analysis.) -/
theorem c5_fallback_amended :
    (∀ (l : Line) (p : Vector2), ¬ (l.to' - l.from').isZero →
      (p - lineClosest l p).isZero →
      (line_signed_distance l p).orthogonality = 0 ∧
        (line_signed_distance l p).sign = 1) ∧
    (∀ (q : Quad) (p : Vector2),
      (p - (quadBest q p).closest_bezier).isZero ∨ (quadDir q p).isZero →
      (quad_signed_distance q p).orthogonality = 0 ∧
        (quad_signed_distance q p).sign = 1) := by
  constructor
  · intro l p _ h
    have h' : (-(lineClosest l p - p)).isZero := by
      obtain ⟨hx, hy⟩ := h
      simp only [Vector2.sub_def] at hx hy
      constructor
      · simp only [Vector2.neg_def, Vector2.sub_def]
        linarith
      · simp only [Vector2.neg_def, Vector2.sub_def]
        linarith
    simp only [line_signed_distance]
    rw [if_pos h']
    exact ⟨abs_zero, by rw [rustSignum, if_pos le_rfl]⟩
  · intro q p h
    simp only [quad_signed_distance]
    rw [if_pos h]
    exact ⟨abs_zero, by rw [rustSignum, if_pos le_rfl]⟩

/-- C5 witness: the line `(0,0) → (2,0)` probed at `(1,0)` (on the segment)
and the fully degenerate quad probed anywhere (zero tangent). -/
theorem c5_fallback_witness :
    (¬ ((Line.mk (⟨0, 0⟩ : Vector2) ⟨2, 0⟩).to' -
        (Line.mk (⟨0, 0⟩ : Vector2) ⟨2, 0⟩).from').isZero) ∧
      ((⟨1, 0⟩ : Vector2) - lineClosest (Line.mk ⟨0, 0⟩ ⟨2, 0⟩) ⟨1, 0⟩).isZero ∧
      (line_signed_distance (Line.mk ⟨0, 0⟩ ⟨2, 0⟩) ⟨1, 0⟩).orthogonality = 0 ∧
      (line_signed_distance (Line.mk ⟨0, 0⟩ ⟨2, 0⟩) ⟨1, 0⟩).sign = 1 ∧
      (quadDir (Quad.mk ⟨0, 0⟩ ⟨0, 0⟩ ⟨0, 0⟩) ⟨2, 0⟩).isZero ∧
      (quad_signed_distance (Quad.mk ⟨0, 0⟩ ⟨0, 0⟩ ⟨0, 0⟩) ⟨2, 0⟩).orthogonality = 0 ∧
      (quad_signed_distance (Quad.mk ⟨0, 0⟩ ⟨0, 0⟩ ⟨0, 0⟩) ⟨2, 0⟩).sign = 1 := by
  have hnz : ¬ ((Line.mk (⟨0, 0⟩ : Vector2) ⟨2, 0⟩).to' -
      (Line.mk (⟨0, 0⟩ : Vector2) ⟨2, 0⟩).from').isZero := by
    simp [Vector2.isZero, Vector2.sub_def]
  have hclosest : lineClosest (Line.mk ⟨0, 0⟩ ⟨2, 0⟩) ⟨1, 0⟩ = ⟨1, 0⟩ := by
    have h1 : lineExtPos (Line.mk ⟨0, 0⟩ ⟨2, 0⟩) ⟨1, 0⟩ = 1 / 2 := by
      simp only [lineExtPos, Vector2.dot, Vector2.sub_def]
      norm_num
    rw [lineClosest, lineRealPos, h1, clamp01_of_mem (by norm_num) (by norm_num)]
    simp only [Vector2.add_def, Vector2.sub_def, Vector2.smul_def]
    norm_num
  have hz : ((⟨1, 0⟩ : Vector2) - lineClosest (Line.mk ⟨0, 0⟩ ⟨2, 0⟩) ⟨1, 0⟩).isZero := by
    rw [hclosest]
    simp [Vector2.isZero, Vector2.sub_def]
  have hdir : (quadDir (Quad.mk ⟨0, 0⟩ ⟨0, 0⟩ ⟨0, 0⟩) ⟨2, 0⟩).isZero := by
    simp only [quadDir, Vector2.isZero, Vector2.sub_def, Vector2.add_def,
      Vector2.smul_def, Vector2.muls_def]
    norm_num
  have hline := c5_fallback_amended.1 (Line.mk ⟨0, 0⟩ ⟨2, 0⟩) ⟨1, 0⟩ hnz hz
  have hquad := c5_fallback_amended.2 (Quad.mk ⟨0, 0⟩ ⟨0, 0⟩ ⟨0, 0⟩) ⟨2, 0⟩ (Or.inr hdir)
  exact ⟨hnz, hz, hline.1, hline.2, hdir, hquad.1, hquad.2⟩

/-! ### Claim C4: degenerate segments are not collapsed to a point distance -/

/-- C4: the code does not handle fully degenerate segments by collapsing to a
point distance.  For the degenerate quad `from = ctrl = to = (0,0)` and probe
`(2,0)`, the closest-point cubic degenerates to `0 = 0` with no roots, the
root loop never runs, and `real_dist` is returned as `sqrt(f32::MAX)` — not
the claimed point distance `|p − from| = 2`.  (The degenerate line
`from = to` is even worse in the real code: `0.0/0.0` produces NaN.) -/
theorem c4_degenerate_quad_eval :
    (quad_signed_distance (Quad.mk ⟨0, 0⟩ ⟨0, 0⟩ ⟨0, 0⟩) ⟨2, 0⟩).real_dist =
        Real.sqrt fMAX ∧
      ((⟨2, 0⟩ : Vector2) - (Quad.mk (⟨0, 0⟩ : Vector2) ⟨0, 0⟩ ⟨0, 0⟩).from').magnitude = 2 ∧
      (quad_signed_distance (Quad.mk ⟨0, 0⟩ ⟨0, 0⟩ ⟨0, 0⟩) ⟨2, 0⟩).real_dist ≠
        ((⟨2, 0⟩ : Vector2) - (Quad.mk (⟨0, 0⟩ : Vector2) ⟨0, 0⟩ ⟨0, 0⟩).from').magnitude := by
  have hroots : cubic_roots 0 0 0 0 = (none, none, none) := by
    simp only [cubic_roots, quadratic_roots]
    norm_num
  have hbest : quadBest (Quad.mk ⟨0, 0⟩ ⟨0, 0⟩ ⟨0, 0⟩) ⟨2, 0⟩ =
      QuadAcc.mk 0 0 ⟨fMAX, fMAX⟩ fMAX := by
    simp only [quadBest, Vector2.dot, Vector2.sub_def, Vector2.add_def,
      Vector2.smul_def]
    norm_num [hroots]
    norm_num [quadStep, List.foldl_cons, List.foldl_nil]
  have hrd : (quad_signed_distance (Quad.mk ⟨0, 0⟩ ⟨0, 0⟩ ⟨0, 0⟩) ⟨2, 0⟩).real_dist =
      Real.sqrt fMAX := by
    simp only [quad_signed_distance, hbest]
  have hmag : ((⟨2, 0⟩ : Vector2) - (Quad.mk (⟨0, 0⟩ : Vector2) ⟨0, 0⟩ ⟨0, 0⟩).from').magnitude
      = 2 := by
    refine magnitude_eval ?_ (by norm_num)
    simp only [Vector2.sub_def]
    norm_num
  refine ⟨hrd, hmag, ?_⟩
  rw [hrd, hmag]
  have h4 : (2 : ℝ) < Real.sqrt fMAX := by
    rw [show (2 : ℝ) = Real.sqrt 4 by
      rw [show (4 : ℝ) = 2 ^ 2 by norm_num, Real.sqrt_sq (by norm_num)]]
    exact Real.sqrt_lt_sqrt (by norm_num) (by rw [fMAX]; norm_num)
  exact ne_of_gt h4

/-! ### Float-aware model of the `Distance` ordering (NaN as `none`)

The exact-real model above cannot express NaN, but `Distance::MAX` carries
`sign: f32::NAN` and `f32::partial_cmp` returns `None` on NaN operands.  Here
an `f32` is `Option ℝ` with `none` for NaN (infinities and rounding are not
modelled; the claims below do not depend on them). -/

/-- The `f32` subtraction: NaN-propagating. -/
def fSub : Option ℝ → Option ℝ → Option ℝ
  | some x, some y => some (x - y)
  | _, _ => none

/-- The `f32::abs`: NaN-propagating. -/
def fAbs : Option ℝ → Option ℝ
  | some x => some |x|
  | none => none

/-- The `f32` multiplication: NaN-propagating (used by `real_signed`). -/
def fMul : Option ℝ → Option ℝ → Option ℝ
  | some x, some y => some (x * y)
  | _, _ => none

/-- The `f32::partial_cmp`: `None` exactly when an operand is NaN. -/
def fCmp : Option ℝ → Option ℝ → Option Ordering
  | some x, some y => some (compare x y)
  | _, _ => none

/-- The `Distance` in the NaN-aware model. -/
structure FDistance where
  extended_dist : Option ℝ
  real_dist : Option ℝ
  orthogonality : Option ℝ
  sign : Option ℝ

/-- The `impl PartialOrd for Distance::partial_cmp` from `src/math.rs` in the
NaN-aware model, including the source's `None` arm. -/
def FDistance.pcmp (a b : FDistance) : Option Ordering :=
  match fCmp (fAbs (fSub a.real_dist b.real_dist)) (some (1 / 100)) with
  | some Ordering.lt => fCmp b.orthogonality a.orthogonality
  | some Ordering.gt => fCmp a.real_dist b.real_dist
  | some Ordering.eq => fCmp b.orthogonality a.orthogonality
  | none => none

/-- The `Distance::MAX` from `src/math.rs`: real and extended distances
`f32::MAX`, orthogonality `0.0`, sign `f32::NAN`. -/
def FDistance.MAX : FDistance :=
  { extended_dist := some fMAX
    real_dist := some fMAX
    orthogonality := some 0
    sign := none }

/-- The `Distance::real_signed`, `self.sign * self.real_dist`. -/
def FDistance.real_signed (d : FDistance) : Option ℝ := fMul d.sign d.real_dist

/-- The `Distance::pseudo_signed`, `self.sign * self.extended_dist`. -/
def FDistance.pseudo_signed (d : FDistance) : Option ℝ :=
  fMul d.sign d.extended_dist

/-! ### Claim C10: `Distance::MAX` -/

/-- C10: `Distance::MAX` has `real_dist = extended_dist = f32::MAX`,
`orthogonality = 0`, `sign = NaN`; `real_signed()` and `pseudo_signed()` on
it return NaN; and comparing `MAX` against any `Distance` whose `real_dist`
(if not NaN) is at most `f32::MAX` and whose `orthogonality` (if not NaN) is
nonnegative never reports `MAX` as strictly preferred (`Less`). -/
theorem c10_distance_max (d : FDistance)
    (hreal : ∀ x : ℝ, d.real_dist = some x → x ≤ fMAX)
    (horth : ∀ y : ℝ, d.orthogonality = some y → 0 ≤ y) :
    FDistance.MAX.extended_dist = some fMAX ∧
      FDistance.MAX.real_dist = some fMAX ∧
      FDistance.MAX.orthogonality = some 0 ∧
      FDistance.MAX.sign = none ∧
      FDistance.real_signed FDistance.MAX = none ∧
      FDistance.pseudo_signed FDistance.MAX = none ∧
      FDistance.pcmp FDistance.MAX d ≠ some Ordering.lt := by
  refine ⟨rfl, rfl, rfl, rfl, rfl, rfl, ?_⟩
  cases hr : d.real_dist with
  | none =>
    unfold FDistance.pcmp
    rw [show FDistance.MAX.real_dist = some fMAX from rfl, hr]
    simp [fSub, fAbs, fCmp]
  | some x =>
    have hx := hreal x hr
    unfold FDistance.pcmp
    rw [show FDistance.MAX.real_dist = some fMAX from rfl,
      show FDistance.MAX.orthogonality = some 0 from rfl, hr]
    simp only [fSub, fAbs, fCmp]
    cases h : compare |fMAX - x| ((1 : ℝ) / 100) with
    | lt =>
      cases ho : d.orthogonality with
      | none => simp [fCmp]
      | some y =>
        simp only [fCmp, ne_eq, Option.some.injEq]
        intro hc
        exact absurd (compare_lt_iff_lt.mp hc) (not_lt_of_le (horth y ho))
    | eq =>
      cases ho : d.orthogonality with
      | none => simp [fCmp]
      | some y =>
        simp only [fCmp, ne_eq, Option.some.injEq]
        intro hc
        exact absurd (compare_lt_iff_lt.mp hc) (not_lt_of_le (horth y ho))
    | gt =>
      simp only [fCmp, ne_eq, Option.some.injEq]
      intro hc
      exact absurd (compare_lt_iff_lt.mp hc) (not_lt_of_le hx)

/-- C10 witness: the theorem applied at the `Distance` `(0, 0, 0, +1)`. -/
theorem c10_distance_max_witness :
    (∀ x : ℝ, (FDistance.mk (some 0) (some 0) (some 0) (some 1)).real_dist = some x →
      x ≤ fMAX) ∧
      (∀ y : ℝ, (FDistance.mk (some 0) (some 0) (some 0) (some 1)).orthogonality = some y →
        0 ≤ y) ∧
      FDistance.pcmp FDistance.MAX (FDistance.mk (some 0) (some 0) (some 0) (some 1)) ≠
        some Ordering.lt := by
  have h1 : ∀ x : ℝ, (FDistance.mk (some 0) (some 0) (some 0) (some 1)).real_dist = some x →
      x ≤ fMAX := by
    intro x hx
    simp only [Option.some.injEq] at hx
    rw [← hx, fMAX]
    norm_num
  have h2 : ∀ y : ℝ, (FDistance.mk (some 0) (some 0) (some 0) (some 1)).orthogonality =
      some y → 0 ≤ y := by
    intro y hy
    simp only [Option.some.injEq] at hy
    rw [← hy]
  exact ⟨h1, h2, (c10_distance_max _ h1 h2).2.2.2.2.2.2⟩

/-! ### Claim C8: totality of the comparison -/

/-- C8 counterexample: the comparison is not total on all `Distance` values —
with a NaN `real_dist` in one operand (as produced e.g. by the degenerate
line of C4) the comparison returns no result. -/
theorem c8_pcmp_counterexample :
    FDistance.pcmp (FDistance.mk (some 0) none (some 0) (some 1))
      (FDistance.mk (some 0) (some 0) (some 0) (some 1)) = none := by
  rfl

/-- C8 amended: the comparison yields a definite result for every pair of
`Distance` values whose `real_dist` and `orthogonality` fields are not NaN;
if a NaN reaches the compared fields, it yields no result. -/
theorem c8_pcmp_amended (a b : FDistance)
    (ha : a.real_dist ≠ none) (hb : b.real_dist ≠ none)
    (ha2 : a.orthogonality ≠ none) (hb2 : b.orthogonality ≠ none) :
    ∃ o : Ordering, FDistance.pcmp a b = some o := by
  obtain ⟨x, hx⟩ := Option.ne_none_iff_exists'.mp ha
  obtain ⟨y, hy⟩ := Option.ne_none_iff_exists'.mp hb
  obtain ⟨u, hu⟩ := Option.ne_none_iff_exists'.mp ha2
  obtain ⟨v, hv⟩ := Option.ne_none_iff_exists'.mp hb2
  unfold FDistance.pcmp
  rw [hx, hy, hu, hv]
  simp only [fSub, fAbs, fCmp]
  cases h : compare |x - y| ((1 : ℝ) / 100) with
  | lt => exact ⟨compare v u, rfl⟩
  | eq => exact ⟨compare v u, rfl⟩
  | gt => exact ⟨compare x y, rfl⟩

/-- C8 witness: the amended totality at a concrete NaN-free pair. -/
theorem c8_pcmp_witness :
    (FDistance.mk (some 0) (some 0) (some 0) (some 1)).real_dist ≠ none ∧
      (FDistance.mk (some 0) (some 3) (some 0) (some 1)).real_dist ≠ none ∧
      (FDistance.mk (some 0) (some 0) (some 0) (some 1)).orthogonality ≠ none ∧
      (FDistance.mk (some 0) (some 3) (some 0) (some 1)).orthogonality ≠ none ∧
      ∃ o : Ordering,
        FDistance.pcmp (FDistance.mk (some 0) (some 0) (some 0) (some 1))
          (FDistance.mk (some 0) (some 3) (some 0) (some 1)) = some o := by
  refine ⟨by simp, by simp, by simp, by simp, ?_⟩
  exact c8_pcmp_amended (FDistance.mk (some 0) (some 0) (some 0) (some 1))
    (FDistance.mk (some 0) (some 3) (some 0) (some 1)) (by simp) (by simp)
    (by simp) (by simp)

/-! ### Claim C3: extended versus real distance -/

theorem line_ext_le_real (l : Line) (p : Vector2) :
    (line_signed_distance l p).extended_dist ≤ (line_signed_distance l p).real_dist := by
  have hext : (line_signed_distance l p).extended_dist =
      (l.from' + lineExtPos l p * (l.to' - l.from') - p).magnitude := rfl
  have hreal : (line_signed_distance l p).real_dist = (lineClosest l p - p).magnitude := rfl
  rw [hext, hreal, Vector2.magnitude, Vector2.magnitude, lineClosest, lineRealPos]
  apply Real.sqrt_le_sqrt
  rcases eq_or_ne ((l.to' - l.from').dot (l.to' - l.from')) 0 with hd | hd
  · have hx : l.to'.x - l.from'.x = 0 := by
      simp only [Vector2.dot, Vector2.sub_def] at hd
      nlinarith [mul_self_nonneg (l.to'.x - l.from'.x), mul_self_nonneg (l.to'.y - l.from'.y)]
    have hy : l.to'.y - l.from'.y = 0 := by
      simp only [Vector2.dot, Vector2.sub_def] at hd
      nlinarith [mul_self_nonneg (l.to'.x - l.from'.x), mul_self_nonneg (l.to'.y - l.from'.y)]
    apply le_of_eq
    simp only [Vector2.magnitude2, Vector2.add_def, Vector2.smul_def, Vector2.sub_def]
    rw [hx, hy]
    ring
  · have ht0 : lineExtPos l p * ((l.to' - l.from').dot (l.to' - l.from')) -
        (p - l.from').dot (l.to' - l.from') = 0 := by
      rw [lineExtPos, div_mul_cancel₀ _ hd, sub_self]
    have hz : (clamp01 (lineExtPos l p) - lineExtPos l p) *
        (lineExtPos l p * ((l.to' - l.from').dot (l.to' - l.from')) -
          (p - l.from').dot (l.to' - l.from')) = 0 := by
      rw [ht0, mul_zero]
    have hdd : 0 ≤ (l.to' - l.from').dot (l.to' - l.from') := by
      simp only [Vector2.dot]
      nlinarith [mul_self_nonneg (l.to' - l.from').x, mul_self_nonneg (l.to' - l.from').y]
    have hsq : 0 ≤ ((l.to' - l.from').dot (l.to' - l.from')) *
        ((clamp01 (lineExtPos l p) - lineExtPos l p) *
          (clamp01 (lineExtPos l p) - lineExtPos l p)) :=
      mul_nonneg hdd (mul_self_nonneg _)
    simp only [Vector2.magnitude2, Vector2.dot, Vector2.add_def, Vector2.smul_def,
      Vector2.sub_def] at hz hsq ⊢
    nlinarith [hz, hsq]

theorem line_ext_eq_real (l : Line) (p : Vector2) (h0 : 0 ≤ lineExtPos l p)
    (h1 : lineExtPos l p ≤ 1) :
    (line_signed_distance l p).extended_dist = (line_signed_distance l p).real_dist := by
  have hext : (line_signed_distance l p).extended_dist =
      (l.from' + lineExtPos l p * (l.to' - l.from') - p).magnitude := rfl
  have hreal : (line_signed_distance l p).real_dist = (lineClosest l p - p).magnitude := rfl
  rw [hext, hreal, lineClosest, lineRealPos, clamp01_of_mem h0 h1]

/-- The correctness invariant of the root loop's state: the stored closest
point, clamped position and squared distance are consistent, and the state
was actually updated (`smallest_dist2` dropped below `f32::MAX`). -/
def QuadAccGood (q : Quad) (p : Vector2) (acc : QuadAcc) : Prop :=
  acc.real_pos = clamp01 acc.extended_pos ∧
  acc.closest_bezier = acc.real_pos * acc.real_pos * (q.to' - (2 : ℝ) * q.ctrl + q.from') +
    2 * acc.real_pos * (q.ctrl - q.from') + q.from' ∧
  acc.smallest_dist2 = (acc.closest_bezier - p).magnitude2 ∧
  acc.smallest_dist2 < fMAX

theorem quadStep_inv (q : Quad) (p : Vector2) (acc : QuadAcc) (r : Option ℝ)
    (h : acc = QuadAcc.mk 0 0 ⟨fMAX, fMAX⟩ fMAX ∨ QuadAccGood q p acc) :
    quadStep (q.ctrl - q.from') (q.to' - (2 : ℝ) * q.ctrl + q.from') q.from' p acc r =
        QuadAcc.mk 0 0 ⟨fMAX, fMAX⟩ fMAX ∨
      QuadAccGood q p
        (quadStep (q.ctrl - q.from') (q.to' - (2 : ℝ) * q.ctrl + q.from') q.from' p acc r) := by
  have hle : acc.smallest_dist2 ≤ fMAX := by
    rcases h with h | h
    · rw [h]
    · exact le_of_lt h.2.2.2
  cases r with
  | none => exact h
  | some r =>
    simp only [quadStep]
    split
    · right
      refine ⟨rfl, rfl, rfl, ?_⟩
      show ((clamp01 r * clamp01 r * (q.to' - (2 : ℝ) * q.ctrl + q.from') +
        2 * clamp01 r * (q.ctrl - q.from') + q.from') - p).magnitude2 < fMAX
      calc ((clamp01 r * clamp01 r * (q.to' - (2 : ℝ) * q.ctrl + q.from') +
            2 * clamp01 r * (q.ctrl - q.from') + q.from') - p).magnitude2 <
          acc.smallest_dist2 := by assumption
        _ ≤ fMAX := hle
    · exact h

theorem quadBest_spec (q : Quad) (p : Vector2) :
    quadBest q p = QuadAcc.mk 0 0 ⟨fMAX, fMAX⟩ fMAX ∨ QuadAccGood q p (quadBest q p) := by
  have hgen : ∀ (l : List (Option ℝ)) (acc : QuadAcc),
      (acc = QuadAcc.mk 0 0 ⟨fMAX, fMAX⟩ fMAX ∨ QuadAccGood q p acc) →
      (l.foldl (quadStep (q.ctrl - q.from') (q.to' - (2 : ℝ) * q.ctrl + q.from') q.from' p) acc
          = QuadAcc.mk 0 0 ⟨fMAX, fMAX⟩ fMAX ∨
        QuadAccGood q p
          (l.foldl (quadStep (q.ctrl - q.from') (q.to' - (2 : ℝ) * q.ctrl + q.from') q.from' p)
            acc)) := by
    intro l
    induction l with
    | nil => intro acc h; exact h
    | cons r rest ih =>
      intro acc h
      simp only [List.foldl_cons]
      exact ih _ (quadStep_inv q p acc r h)
  simp only [quadBest]
  exact hgen _ _ (Or.inl rfl)

theorem quad_ext_eq_real (q : Quad) (p : Vector2)
    (hsel : (quadBest q p).smallest_dist2 < fMAX)
    (h0 : 0 ≤ (quadBest q p).extended_pos) (h1 : (quadBest q p).extended_pos ≤ 1) :
    (quad_signed_distance q p).extended_dist = (quad_signed_distance q p).real_dist := by
  rcases quadBest_spec q p with h | h
  · rw [h] at hsel
    exact absurd hsel (lt_irrefl fMAX)
  · obtain ⟨hrp, hcb, hsd, _⟩ := h
    have hext : (quad_signed_distance q p).extended_dist =
        ((quadBest q p).extended_pos * (quadBest q p).extended_pos *
            (q.to' - (2 : ℝ) * q.ctrl + q.from') +
          2 * (quadBest q p).extended_pos * (q.ctrl - q.from') + q.from' - p).magnitude := rfl
    have hreal : (quad_signed_distance q p).real_dist =
        Real.sqrt (quadBest q p).smallest_dist2 := rfl
    rw [hext, hreal, hsd, hcb, hrp, clamp01_of_mem h0 h1, Vector2.magnitude]

/-- C3 amended: for every line segment and probe, `extended_dist ≤ real_dist`
(in exact arithmetic — hence `≤ real_dist + ε` for any `ε ≥ 0`), with
equality whenever the unconstrained optimum `t` already lies in `[0,1]`.  For
a quadratic segment, whenever the root loop selected a root and the selected
(unclamped) root lies in `[0,1]`, `extended_dist = real_dist`.  The
inequality `extended_dist ≤ real_dist + ε` does NOT hold for quadratic
segments in general (see the counterexample): the loop picks the root by
smallest clamped distance with first-wins ties, which can be a local maximum
of the unclamped distance. -/
theorem c3_extended_vs_real_amended :
    (∀ (l : Line) (p : Vector2),
      (line_signed_distance l p).extended_dist ≤ (line_signed_distance l p).real_dist) ∧
    (∀ (l : Line) (p : Vector2), 0 ≤ lineExtPos l p → lineExtPos l p ≤ 1 →
      (line_signed_distance l p).extended_dist = (line_signed_distance l p).real_dist) ∧
    (∀ (q : Quad) (p : Vector2), (quadBest q p).smallest_dist2 < fMAX →
      0 ≤ (quadBest q p).extended_pos → (quadBest q p).extended_pos ≤ 1 →
      (quad_signed_distance q p).extended_dist = (quad_signed_distance q p).real_dist) :=
  ⟨line_ext_le_real, line_ext_eq_real, quad_ext_eq_real⟩

/-- C3 witness: the line `(0,0) → (2,0)` probed at `(1,1)` (interior optimum
`t = 1/2`) and the quad `((0,0),(1,0),(2,0))` probed at `(1,0)` (selected
root `1/2`). -/
theorem c3_extended_vs_real_witness :
    (0 : ℝ) ≤ lineExtPos (Line.mk ⟨0, 0⟩ ⟨2, 0⟩) ⟨1, 1⟩ ∧
      lineExtPos (Line.mk ⟨0, 0⟩ ⟨2, 0⟩) ⟨1, 1⟩ ≤ 1 ∧
      (line_signed_distance (Line.mk ⟨0, 0⟩ ⟨2, 0⟩) ⟨1, 1⟩).extended_dist =
        (line_signed_distance (Line.mk ⟨0, 0⟩ ⟨2, 0⟩) ⟨1, 1⟩).real_dist ∧
      (quadBest (Quad.mk ⟨0, 0⟩ ⟨1, 0⟩ ⟨2, 0⟩) ⟨1, 0⟩).smallest_dist2 < fMAX ∧
      0 ≤ (quadBest (Quad.mk ⟨0, 0⟩ ⟨1, 0⟩ ⟨2, 0⟩) ⟨1, 0⟩).extended_pos ∧
      (quadBest (Quad.mk ⟨0, 0⟩ ⟨1, 0⟩ ⟨2, 0⟩) ⟨1, 0⟩).extended_pos ≤ 1 ∧
      (quad_signed_distance (Quad.mk ⟨0, 0⟩ ⟨1, 0⟩ ⟨2, 0⟩) ⟨1, 0⟩).extended_dist =
        (quad_signed_distance (Quad.mk ⟨0, 0⟩ ⟨1, 0⟩ ⟨2, 0⟩) ⟨1, 0⟩).real_dist := by
  have hroots : cubic_roots 0 0 2 (-1) = (some (1 / 2), none, none) := by
    simp only [cubic_roots, quadratic_roots]
    norm_num
  have hbest : quadBest (Quad.mk ⟨0, 0⟩ ⟨1, 0⟩ ⟨2, 0⟩) ⟨1, 0⟩ =
      QuadAcc.mk (1 / 2) (1 / 2) ⟨1, 0⟩ 0 := by
    simp only [quadBest, Vector2.dot, Vector2.sub_def, Vector2.add_def, Vector2.smul_def]
    norm_num [hroots]
    norm_num [quadStep, clamp01, min_def, max_def, fMAX, Vector2.magnitude2,
      Vector2.sub_def, Vector2.add_def, Vector2.smul_def, QuadAcc.mk.injEq]
  have hl0 : (0 : ℝ) ≤ lineExtPos (Line.mk ⟨0, 0⟩ ⟨2, 0⟩) ⟨1, 1⟩ := by
    simp only [lineExtPos, Vector2.dot, Vector2.sub_def]
    norm_num
  have hl1 : lineExtPos (Line.mk ⟨0, 0⟩ ⟨2, 0⟩) ⟨1, 1⟩ ≤ 1 := by
    simp only [lineExtPos, Vector2.dot, Vector2.sub_def]
    norm_num
  have hq1 : (quadBest (Quad.mk ⟨0, 0⟩ ⟨1, 0⟩ ⟨2, 0⟩) ⟨1, 0⟩).smallest_dist2 < fMAX := by
    rw [hbest]
    show (0 : ℝ) < fMAX
    rw [fMAX]
    norm_num
  have hq2 : (0 : ℝ) ≤ (quadBest (Quad.mk ⟨0, 0⟩ ⟨1, 0⟩ ⟨2, 0⟩) ⟨1, 0⟩).extended_pos := by
    rw [hbest]
    norm_num
  have hq3 : (quadBest (Quad.mk ⟨0, 0⟩ ⟨1, 0⟩ ⟨2, 0⟩) ⟨1, 0⟩).extended_pos ≤ 1 := by
    rw [hbest]
    norm_num
  exact ⟨hl0, hl1, c3_extended_vs_real_amended.2.1 _ _ hl0 hl1, hq1, hq2, hq3,
    c3_extended_vs_real_amended.2.2 _ _ hq1 hq2 hq3⟩

theorem quadStep_none (v1 v2 p0 p : Vector2) (acc : QuadAcc) :
    quadStep v1 v2 p0 p acc none = acc := rfl

theorem quadStep_some (v1 v2 p0 p : Vector2) (acc : QuadAcc) (r : ℝ) :
    quadStep v1 v2 p0 p acc (some r) =
      if (clamp01 r * clamp01 r * v2 + 2 * clamp01 r * v1 + p0 - p).magnitude2 <
          acc.smallest_dist2 then
        QuadAcc.mk r (clamp01 r) (clamp01 r * clamp01 r * v2 + 2 * clamp01 r * v1 + p0)
          ((clamp01 r * clamp01 r * v2 + 2 * clamp01 r * v1 + p0 - p).magnitude2)
      else acc := rfl

theorem quadBest_eq (q : Quad) (p : Vector2) {a b c d : ℝ}
    (hA : (q.to' - (2 : ℝ) * q.ctrl + q.from').dot (q.to' - (2 : ℝ) * q.ctrl + q.from') = a)
    (hB : 3 * (q.ctrl - q.from').dot (q.to' - (2 : ℝ) * q.ctrl + q.from') = b)
    (hC : 2 * (q.ctrl - q.from').dot (q.ctrl - q.from') -
      (q.to' - (2 : ℝ) * q.ctrl + q.from').dot (p - q.from') = c)
    (hD : -((q.ctrl - q.from').dot (p - q.from')) = d) :
    quadBest q p = [(cubic_roots a b c d).1, (cubic_roots a b c d).2.1,
      (cubic_roots a b c d).2.2].foldl
        (quadStep (q.ctrl - q.from') (q.to' - (2 : ℝ) * q.ctrl + q.from') q.from' p)
        (QuadAcc.mk 0 0 ⟨fMAX, fMAX⟩ fMAX) := by
  simp only [quadBest]
  rw [hA, hB, hC, hD]

/-- C3 counterexample: for the quad `((0,0),(1,3),(2,7))` probed from
`(-2,-1)`, the closest-point cubic is `t³ + 9t² + 21t + 5` with the three
real roots `-5`, `-2±√3`, all negative.  They all clamp to `t = 0` with equal
squared distance `5`, so the first root `-5` wins the loop; but `-5` is only
a *local* extremum of the unclamped distance: `extended_dist = √80 ≈ 8.94`
while `real_dist = √5 ≈ 2.24`.  Hence `extended_dist ≤ real_dist + ε` fails
(here by more than `1/2`). -/
theorem c3_extended_gt_real_counterexample :
    (quad_signed_distance (Quad.mk ⟨0, 0⟩ ⟨1, 3⟩ ⟨2, 7⟩) ⟨-2, -1⟩).real_dist + 1 / 2 <
      (quad_signed_distance (Quad.mk ⟨0, 0⟩ ⟨1, 3⟩ ⟨2, 7⟩) ⟨-2, -1⟩).extended_dist := by
  have hs2 : Real.sqrt 2 * Real.sqrt 2 = 2 := Real.mul_self_sqrt (by norm_num)
  have hs2nn : (0 : ℝ) ≤ Real.sqrt 2 := Real.sqrt_nonneg 2
  have hs2lt : Real.sqrt 2 < 3 / 2 := by
    have h := Real.sqrt_lt_sqrt (by norm_num : (0 : ℝ) ≤ 2) (by norm_num : (2 : ℝ) < (3 / 2) ^ 2)
    rwa [Real.sqrt_sq (by norm_num : (0 : ℝ) ≤ (3 / 2 : ℝ))] at h
  have hq : cubicQ (9 / 1) (21 / 1) = 2 := by norm_num [cubicQ]
  have hr : cubicR (9 / 1) (21 / 1) (5 / 1) = -2 := by norm_num [cubicR]
  -- the three roots produced by the solver
  have hroots : cubic_roots 1 9 21 5 =
      (some (-2 * Real.sqrt 2 *
          Real.cos (Real.arccos (-2 / Real.sqrt 2 ^ 3) * (1 / 3)) - 3),
       some (-2 * Real.sqrt 2 *
          Real.cos ((Real.arccos (-2 / Real.sqrt 2 ^ 3) + 2 * Real.pi) * (1 / 3)) - 3),
       some (-2 * Real.sqrt 2 *
          Real.cos ((Real.arccos (-2 / Real.sqrt 2 ^ 3) - 2 * Real.pi) * (1 / 3)) - 3)) := by
    unfold cubic_roots
    rw [if_neg (one_ne_zero)]
    rw [if_neg (by rw [hq, hr]; norm_num)]
    rw [hq, hr]
    norm_num
  -- the first root is exactly -5
  have hcube : Real.sqrt 2 ^ 3 = 2 * Real.sqrt 2 := by
    rw [pow_succ, sq, hs2]
  have hw : (-2 : ℝ) / Real.sqrt 2 ^ 3 = -(Real.sqrt 2 / 2) := by
    rw [hcube, div_eq_iff (by positivity : (2 : ℝ) * Real.sqrt 2 ≠ 0)]
    ring_nf
    nlinarith [hs2]
  have hcos34 : Real.cos (3 * Real.pi / 4) = -(Real.sqrt 2 / 2) := by
    rw [show (3 : ℝ) * Real.pi / 4 = Real.pi - Real.pi / 4 by ring, Real.cos_pi_sub,
      Real.cos_pi_div_four]
  have hth : Real.arccos (-2 / Real.sqrt 2 ^ 3) = 3 * Real.pi / 4 := by
    rw [hw, ← hcos34]
    exact Real.arccos_cos (by positivity) (by nlinarith [Real.pi_pos])
  have hx1 : -2 * Real.sqrt 2 * Real.cos (Real.arccos (-2 / Real.sqrt 2 ^ 3) * (1 / 3)) - 3 =
      -5 := by
    rw [hth, show (3 : ℝ) * Real.pi / 4 * (1 / 3) = Real.pi / 4 by ring,
      Real.cos_pi_div_four]
    nlinarith [hs2]
  -- the other two roots are negative
  have hx2 : -2 * Real.sqrt 2 *
      Real.cos ((Real.arccos (-2 / Real.sqrt 2 ^ 3) + 2 * Real.pi) * (1 / 3)) - 3 ≤ 0 := by
    nlinarith [Real.neg_one_le_cos ((Real.arccos (-2 / Real.sqrt 2 ^ 3) + 2 * Real.pi) * (1 / 3)),
      Real.cos_le_one ((Real.arccos (-2 / Real.sqrt 2 ^ 3) + 2 * Real.pi) * (1 / 3)),
      hs2nn, hs2lt]
  have hx3 : -2 * Real.sqrt 2 *
      Real.cos ((Real.arccos (-2 / Real.sqrt 2 ^ 3) - 2 * Real.pi) * (1 / 3)) - 3 ≤ 0 := by
    nlinarith [Real.neg_one_le_cos ((Real.arccos (-2 / Real.sqrt 2 ^ 3) - 2 * Real.pi) * (1 / 3)),
      Real.cos_le_one ((Real.arccos (-2 / Real.sqrt 2 ^ 3) - 2 * Real.pi) * (1 / 3)),
      hs2nn, hs2lt]
  -- concrete vectors
  have hv1 : (Quad.mk (⟨0, 0⟩ : Vector2) ⟨1, 3⟩ ⟨2, 7⟩).ctrl -
      (Quad.mk (⟨0, 0⟩ : Vector2) ⟨1, 3⟩ ⟨2, 7⟩).from' = (⟨1, 3⟩ : Vector2) := by
    simp only [Vector2.sub_def]
    norm_num
  have hv2 : (Quad.mk (⟨0, 0⟩ : Vector2) ⟨1, 3⟩ ⟨2, 7⟩).to' -
      (2 : ℝ) * (Quad.mk (⟨0, 0⟩ : Vector2) ⟨1, 3⟩ ⟨2, 7⟩).ctrl +
      (Quad.mk (⟨0, 0⟩ : Vector2) ⟨1, 3⟩ ⟨2, 7⟩).from' = (⟨0, 1⟩ : Vector2) := by
    simp only [Vector2.sub_def, Vector2.add_def, Vector2.smul_def]
    norm_num
  -- the root-selection loop
  have hbz0 : ∀ t : ℝ, t * t * (⟨0, 1⟩ : Vector2) + 2 * t * (⟨1, 3⟩ : Vector2) +
      (⟨0, 0⟩ : Vector2) = ⟨2 * t, t * t + 6 * t⟩ := by
    intro t
    simp only [Vector2.smul_def, Vector2.add_def, Vector2.mk.injEq]
    constructor <;> ring
  have hmag0 : ((⟨0, 0⟩ : Vector2) - (⟨-2, -1⟩ : Vector2)).magnitude2 = 5 := by
    simp only [Vector2.magnitude2, Vector2.sub_def]
    norm_num
  have hstep1 : quadStep (⟨1, 3⟩ : Vector2) (⟨0, 1⟩ : Vector2) (⟨0, 0⟩ : Vector2)
      (⟨-2, -1⟩ : Vector2) (QuadAcc.mk 0 0 ⟨fMAX, fMAX⟩ fMAX) (some (-5)) =
      QuadAcc.mk (-5) 0 ⟨0, 0⟩ 5 := by
    rw [quadStep_some, clamp01_of_nonpos (by norm_num : (-5 : ℝ) ≤ 0)]
    have hbz : (0 : ℝ) * (0 : ℝ) * (⟨0, 1⟩ : Vector2) + 2 * (0 : ℝ) * (⟨1, 3⟩ : Vector2) +
        (⟨0, 0⟩ : Vector2) = (⟨0, 0⟩ : Vector2) := by
      rw [hbz0]
      simp only [Vector2.mk.injEq]
      norm_num
    rw [hbz, hmag0]
    rw [if_pos (show (5 : ℝ) < (QuadAcc.mk 0 0 (⟨fMAX, fMAX⟩ : Vector2) fMAX).smallest_dist2
      from by show (5 : ℝ) < fMAX; rw [fMAX]; norm_num)]
  have hstepskip : ∀ r : ℝ, r ≤ 0 →
      quadStep (⟨1, 3⟩ : Vector2) (⟨0, 1⟩ : Vector2) (⟨0, 0⟩ : Vector2)
        (⟨-2, -1⟩ : Vector2) (QuadAcc.mk (-5) 0 ⟨0, 0⟩ 5) (some r) =
      QuadAcc.mk (-5) 0 ⟨0, 0⟩ 5 := by
    intro r hrle
    rw [quadStep_some, clamp01_of_nonpos hrle]
    have hbz : (0 : ℝ) * (0 : ℝ) * (⟨0, 1⟩ : Vector2) + 2 * (0 : ℝ) * (⟨1, 3⟩ : Vector2) +
        (⟨0, 0⟩ : Vector2) = (⟨0, 0⟩ : Vector2) := by
      rw [hbz0]
      simp only [Vector2.mk.injEq]
      norm_num
    rw [hbz, hmag0]
    rw [if_neg (show ¬ ((5 : ℝ) < (QuadAcc.mk (-5) 0 (⟨0, 0⟩ : Vector2) 5).smallest_dist2)
      from by show ¬ ((5 : ℝ) < 5); norm_num)]
  have hbest : quadBest (Quad.mk ⟨0, 0⟩ ⟨1, 3⟩ ⟨2, 7⟩) ⟨-2, -1⟩ =
      QuadAcc.mk (-5) 0 ⟨0, 0⟩ 5 := by
    have hA : ((Quad.mk (⟨0, 0⟩ : Vector2) ⟨1, 3⟩ ⟨2, 7⟩).to' -
        (2 : ℝ) * (Quad.mk (⟨0, 0⟩ : Vector2) ⟨1, 3⟩ ⟨2, 7⟩).ctrl +
        (Quad.mk (⟨0, 0⟩ : Vector2) ⟨1, 3⟩ ⟨2, 7⟩).from').dot
          ((Quad.mk (⟨0, 0⟩ : Vector2) ⟨1, 3⟩ ⟨2, 7⟩).to' -
          (2 : ℝ) * (Quad.mk (⟨0, 0⟩ : Vector2) ⟨1, 3⟩ ⟨2, 7⟩).ctrl +
          (Quad.mk (⟨0, 0⟩ : Vector2) ⟨1, 3⟩ ⟨2, 7⟩).from') = (1 : ℝ) := by
      rw [hv2]
      simp only [Vector2.dot]
      norm_num
    have hB : 3 * ((Quad.mk (⟨0, 0⟩ : Vector2) ⟨1, 3⟩ ⟨2, 7⟩).ctrl -
        (Quad.mk (⟨0, 0⟩ : Vector2) ⟨1, 3⟩ ⟨2, 7⟩).from').dot
          ((Quad.mk (⟨0, 0⟩ : Vector2) ⟨1, 3⟩ ⟨2, 7⟩).to' -
          (2 : ℝ) * (Quad.mk (⟨0, 0⟩ : Vector2) ⟨1, 3⟩ ⟨2, 7⟩).ctrl +
          (Quad.mk (⟨0, 0⟩ : Vector2) ⟨1, 3⟩ ⟨2, 7⟩).from') = (9 : ℝ) := by
      rw [hv1, hv2]
      simp only [Vector2.dot]
      norm_num
    have hC : 2 * ((Quad.mk (⟨0, 0⟩ : Vector2) ⟨1, 3⟩ ⟨2, 7⟩).ctrl -
        (Quad.mk (⟨0, 0⟩ : Vector2) ⟨1, 3⟩ ⟨2, 7⟩).from').dot
          ((Quad.mk (⟨0, 0⟩ : Vector2) ⟨1, 3⟩ ⟨2, 7⟩).ctrl -
          (Quad.mk (⟨0, 0⟩ : Vector2) ⟨1, 3⟩ ⟨2, 7⟩).from') -
        ((Quad.mk (⟨0, 0⟩ : Vector2) ⟨1, 3⟩ ⟨2, 7⟩).to' -
          (2 : ℝ) * (Quad.mk (⟨0, 0⟩ : Vector2) ⟨1, 3⟩ ⟨2, 7⟩).ctrl +
          (Quad.mk (⟨0, 0⟩ : Vector2) ⟨1, 3⟩ ⟨2, 7⟩).from').dot
            ((⟨-2, -1⟩ : Vector2) - (Quad.mk (⟨0, 0⟩ : Vector2) ⟨1, 3⟩ ⟨2, 7⟩).from') =
        (21 : ℝ) := by
      rw [hv1, hv2]
      simp only [Vector2.dot, Vector2.sub_def]
      norm_num
    have hD : -(((Quad.mk (⟨0, 0⟩ : Vector2) ⟨1, 3⟩ ⟨2, 7⟩).ctrl -
        (Quad.mk (⟨0, 0⟩ : Vector2) ⟨1, 3⟩ ⟨2, 7⟩).from').dot
          ((⟨-2, -1⟩ : Vector2) - (Quad.mk (⟨0, 0⟩ : Vector2) ⟨1, 3⟩ ⟨2, 7⟩).from')) =
        (5 : ℝ) := by
      rw [hv1]
      simp only [Vector2.dot, Vector2.sub_def]
      norm_num
    rw [quadBest_eq (Quad.mk ⟨0, 0⟩ ⟨1, 3⟩ ⟨2, 7⟩) ⟨-2, -1⟩ hA hB hC hD]
    rw [hroots, hv1, hv2]
    simp only [List.foldl_cons, List.foldl_nil]
    rw [hx1, hstep1, hstepskip _ hx2, hstepskip _ hx3]
  -- assemble the two distances
  have hreal : (quad_signed_distance (Quad.mk ⟨0, 0⟩ ⟨1, 3⟩ ⟨2, 7⟩) ⟨-2, -1⟩).real_dist =
      Real.sqrt 5 := by
    show Real.sqrt (quadBest (Quad.mk ⟨0, 0⟩ ⟨1, 3⟩ ⟨2, 7⟩) ⟨-2, -1⟩).smallest_dist2 =
      Real.sqrt 5
    rw [hbest]
  have hext : (quad_signed_distance (Quad.mk ⟨0, 0⟩ ⟨1, 3⟩ ⟨2, 7⟩) ⟨-2, -1⟩).extended_dist =
      Real.sqrt 80 := by
    show ((quadBest (Quad.mk ⟨0, 0⟩ ⟨1, 3⟩ ⟨2, 7⟩) ⟨-2, -1⟩).extended_pos *
        (quadBest (Quad.mk ⟨0, 0⟩ ⟨1, 3⟩ ⟨2, 7⟩) ⟨-2, -1⟩).extended_pos *
          ((Quad.mk (⟨0, 0⟩ : Vector2) ⟨1, 3⟩ ⟨2, 7⟩).to' -
            (2 : ℝ) * (Quad.mk (⟨0, 0⟩ : Vector2) ⟨1, 3⟩ ⟨2, 7⟩).ctrl +
            (Quad.mk (⟨0, 0⟩ : Vector2) ⟨1, 3⟩ ⟨2, 7⟩).from') +
        2 * (quadBest (Quad.mk ⟨0, 0⟩ ⟨1, 3⟩ ⟨2, 7⟩) ⟨-2, -1⟩).extended_pos *
          ((Quad.mk (⟨0, 0⟩ : Vector2) ⟨1, 3⟩ ⟨2, 7⟩).ctrl -
            (Quad.mk (⟨0, 0⟩ : Vector2) ⟨1, 3⟩ ⟨2, 7⟩).from') +
        (Quad.mk (⟨0, 0⟩ : Vector2) ⟨1, 3⟩ ⟨2, 7⟩).from' -
        (⟨-2, -1⟩ : Vector2)).magnitude = Real.sqrt 80
    rw [hbest, hv1, hv2]
    have hvec : ((-5 : ℝ)) * (-5 : ℝ) * (⟨0, 1⟩ : Vector2) + 2 * (-5 : ℝ) * (⟨1, 3⟩ : Vector2) +
        (⟨0, 0⟩ : Vector2) - (⟨-2, -1⟩ : Vector2) = (⟨-8, -4⟩ : Vector2) := by
      simp only [Vector2.smul_def, Vector2.add_def, Vector2.sub_def]
      norm_num
    show (QuadAcc.extended_pos (QuadAcc.mk (-5) 0 ⟨0, 0⟩ 5) *
        QuadAcc.extended_pos (QuadAcc.mk (-5) 0 ⟨0, 0⟩ 5) * (⟨0, 1⟩ : Vector2) +
        2 * QuadAcc.extended_pos (QuadAcc.mk (-5) 0 ⟨0, 0⟩ 5) * (⟨1, 3⟩ : Vector2) +
        (⟨0, 0⟩ : Vector2) - (⟨-2, -1⟩ : Vector2)).magnitude = Real.sqrt 80
    show ((-5 : ℝ) * (-5 : ℝ) * (⟨0, 1⟩ : Vector2) + 2 * (-5 : ℝ) * (⟨1, 3⟩ : Vector2) +
        (⟨0, 0⟩ : Vector2) - (⟨-2, -1⟩ : Vector2)).magnitude = Real.sqrt 80
    rw [hvec, Vector2.magnitude]
    simp only [Vector2.magnitude2]
    norm_num
  rw [hreal, hext]
  have h5 : Real.sqrt 5 ≤ 9 / 4 := by
    have h := Real.sqrt_le_sqrt (by norm_num : (5 : ℝ) ≤ (9 / 4) ^ 2)
    rwa [Real.sqrt_sq (by norm_num : (0 : ℝ) ≤ (9 / 4 : ℝ))] at h
  have h80 : (8 : ℝ) ≤ Real.sqrt 80 := by
    have h := Real.sqrt_le_sqrt (by norm_num : ((8 : ℝ)) ^ 2 ≤ 80)
    rwa [Real.sqrt_sq (by norm_num : (0 : ℝ) ≤ (8 : ℝ))] at h
  linarith

end Msdfont
